import Mathlib

/-!
Verification of the connect-migration-utility property-mapping engine.

This file gives a shallow embedding, in Lean 4, of the parts of the
repository that the verified properties talk about:

* `src/database_utils.py` (`DatabaseUtils.parse_jdbc_url`) and the
  twin `ConnectorComparator._parse_jdbc_url` of
  `src/connector_comparator.py`;
* `src/semantic_matcher.py` (`SemanticMatcher.find_best_match`);
* `src/connector_comparator.py`: the transform/predicate classifier
  `classify_transform_configs_with_full_chain`, the reverse-switch
  machinery, `_check_required_configs`, the derivation registry and the
  orchestrator `transformSMToFm`.

Python dictionaries of string configs are modelled as insertion-ordered
association lists (`ConfigMap`); a `dict` assignment replaces the value
in place, keeping the original position, exactly as CPython does.
Environmental inputs (located templates, the sentence-embedding backend
behind the similarity score, the remotely fetched set of FM transform
types) are passed as explicit parameters, since the Python code obtains
them from files / HTTP.  Python `re.search` calls are embedded as
hand-rolled searchers for the exact patterns the source uses; every
pattern is of the deterministic shape literal / greedy character-class
run, so leftmost-match scanning reproduces `re.search` faithfully.
-/

set_option autoImplicit false

namespace ConnectMigration

/-! ## Association-list model of Python `dict[str, str]` -/

abbrev ConfigMap := List (String × String)

/-- `m[k]` lookup: value of the first (and, for a dict, only) binding of `k`. -/
def cmGet (m : ConfigMap) (k : String) : Option String :=
  match m with
  | [] => none
  | (k', v) :: rest => if k' = k then some v else cmGet rest k

/-- Python `k in m`. -/
def cmContains (m : ConfigMap) (k : String) : Bool :=
  (cmGet m k).isSome

/-- Python `m[k] = v`: replace in place if the key exists, else append. -/
def cmInsert (m : ConfigMap) (k v : String) : ConfigMap :=
  match m with
  | [] => [(k, v)]
  | (k', v') :: rest => if k' = k then (k', v) :: rest else (k', v') :: cmInsert rest k v

/-- Python `m.update(other)`. -/
def cmUpdate (m other : ConfigMap) : ConfigMap :=
  other.foldl (fun acc kv => cmInsert acc kv.1 kv.2) m

/-- Python `m.get(k, d)`. -/
def cmGetD (m : ConfigMap) (k d : String) : String :=
  (cmGet m k).getD d

theorem cmGet_cmInsert_self (m : ConfigMap) (k v : String) :
    cmGet (cmInsert m k v) k = some v := by
  induction m with
  | nil => simp [cmInsert, cmGet]
  | cons hd tl ih =>
    obtain ⟨k', v'⟩ := hd
    by_cases h : k' = k <;> simp [cmInsert, cmGet, h, ih]

theorem cmGet_cmInsert_ne (m : ConfigMap) (k v k' : String) (h : k ≠ k') :
    cmGet (cmInsert m k v) k' = cmGet m k' := by
  induction m with
  | nil => simp [cmInsert, cmGet, h]
  | cons hd tl ih =>
    obtain ⟨k₀, v₀⟩ := hd
    by_cases h₀ : k₀ = k
    · subst h₀
      simp [cmInsert, cmGet, h]
    · by_cases h₁ : k₀ = k'
      · subst h₁
        simp [cmInsert, cmGet, h₀, Ne.symm h]
      · simp [cmInsert, cmGet, h₀, h₁, ih]

theorem cmContains_cmInsert_of_contains (m : ConfigMap) (k v k' : String)
    (h : cmContains m k' = true) : cmContains (cmInsert m k v) k' = true := by
  by_cases hk : k = k'
  · subst hk
    simp [cmContains, cmGet_cmInsert_self]
  · simpa [cmContains, cmGet_cmInsert_ne m k v k' hk] using h

theorem cmContains_cmUpdate_of_contains (m other : ConfigMap) (k : String)
    (h : cmContains m k = true) : cmContains (cmUpdate m other) k = true := by
  induction other generalizing m with
  | nil => simpa [cmUpdate] using h
  | cons hd tl ih =>
    simpa [cmUpdate] using
      ih (cmInsert m hd.1 hd.2) (cmContains_cmInsert_of_contains m hd.1 hd.2 k h)

/-! ## String helpers shared by the parsers

The embeddings avoid the position-based `String` library functions and
work on `List Char` throughout, mirroring Python string methods. -/

/-- Python `s.lower()` (ASCII as used by the configs). -/
def strToLower (s : String) : String :=
  String.mk (s.toList.map Char.toLower)

/-- Python `s.upper()`. -/
def strToUpper (s : String) : String :=
  String.mk (s.toList.map Char.toUpper)

/-- Python `s.strip()`. -/
def pyStrip (s : String) : String :=
  String.mk (((s.toList.dropWhile Char.isWhitespace).reverse.dropWhile Char.isWhitespace).reverse)

/-- Python `s.startswith(pat)`. -/
def strStartsWith (s pat : String) : Bool :=
  pat.toList.isPrefixOf s.toList

/-- Python `s.split(sep)` for a one-character separator (keeps empty parts). -/
def splitOnCharAux (sep : Char) : List Char → List Char → List (List Char)
  | [], acc => [acc.reverse]
  | c :: rest, acc =>
    if c = sep then acc.reverse :: splitOnCharAux sep rest []
    else splitOnCharAux sep rest (c :: acc)

/-- Python `s.split(sep)` for a one-character separator. -/
def strSplitOn (s : String) (sep : Char) : List String :=
  (splitOnCharAux sep s.toList []).map String.mk

/-- Python `pat in s` (substring containment), on char lists. -/
def containsSubAux (pat : List Char) : List Char → Bool
  | [] => pat.isPrefixOf ([] : List Char)
  | c :: rest => pat.isPrefixOf (c :: rest) || containsSubAux pat rest

/-- Python `pat in s` for strings. -/
def strContains (s pat : String) : Bool :=
  containsSubAux pat.toList s.toList

/-- Strip a required literal, case-sensitively; `none` when it is not a prefix. -/
def dropLit? (lit : List Char) (s : List Char) : Option (List Char) :=
  match lit, s with
  | [], rest => some rest
  | _ :: _, [] => none
  | l :: ls, c :: cs => if l = c then dropLit? ls cs else none

/-- Strip a required literal, case-insensitively (ASCII, as `re.IGNORECASE`). -/
def dropLitCI? (lit : List Char) (s : List Char) : Option (List Char) :=
  match lit, s with
  | [], rest => some rest
  | _ :: _, [] => none
  | l :: ls, c :: cs => if l.toLower = c.toLower then dropLitCI? ls cs else none

/-- Strip a literal, either case-sensitively or case-insensitively. -/
def dropLitC? (ci : Bool) (lit : List Char) (s : List Char) : Option (List Char) :=
  if ci then dropLitCI? lit s else dropLit? lit s

/-- `re.search` driver: try the matcher at every position, leftmost first. -/
def searchWith {α : Type} (m : List Char → Option α) : List Char → Option α
  | [] => m []
  | c :: rest =>
    match m (c :: rest) with
    | some r => some r
    | none => searchWith m rest

/-! ## The exact regex patterns of `parse_jdbc_url`

Each Python pattern below consists of literals and greedy runs of a
character class that excludes the character required right after it, so
backtracking never changes the outcome and a deterministic
longest-run matcher is equivalent to `re.search` at each position. -/

/-- `lit([^\)]+)\)` at the head of `s`, e.g. `\(HOST=([^\)]+)\)`. -/
def matchParenCaptureAt (ci : Bool) (lit : List Char) (s : List Char) : Option String :=
  match dropLitC? ci lit s with
  | none => none
  | some rest =>
    let run := rest.takeWhile (fun c => c != ')')
    let rest' := rest.dropWhile (fun c => c != ')')
    if run.isEmpty then none
    else
      match rest' with
      | ')' :: _ => some (String.mk run)
      | _ => none

/-- `\(CONNECT_DATA=\(([^=\)]+)=([^\)]+)\)\)` at the head of `s`. -/
def matchConnectDataAt (ci : Bool) (s : List Char) : Option (String × String) :=
  match dropLitC? ci "(CONNECT_DATA=(".toList s with
  | none => none
  | some r0 =>
    let k := r0.takeWhile (fun c => c != '=' && c != ')')
    let r1 := r0.dropWhile (fun c => c != '=' && c != ')')
    if k.isEmpty then none
    else
      match r1 with
      | '=' :: r2 =>
        let v := r2.takeWhile (fun c => c != ')')
        let r3 := r2.dropWhile (fun c => c != ')')
        if v.isEmpty then none
        else
          match r3 with
          | ')' :: ')' :: _ => some (String.mk k, String.mk v)
          | _ => none
      | _ => none

/-- Suffix `\\?"?\)` of the `SSL_SERVER_CERT_DN` pattern, alternatives in
regex preference order (consume the optional characters first). -/
def dnSuffixOk : List Char → Bool
  | '\\' :: '"' :: ')' :: _ => true
  | '\\' :: ')' :: _ => true
  | '"' :: ')' :: _ => true
  | ')' :: _ => true
  | _ => false

/-- Greedy-first backtracking over the capture length of
`([^\)\"]+)` followed by `dnSuffixOk`; `revRun` is the reversed run. -/
def dnTryLengths : List Char → List Char → Option String
  | [], _ => none
  | c :: revRest, rest =>
    if dnSuffixOk rest then some (String.mk (c :: revRest).reverse)
    else dnTryLengths revRest (c :: rest)

/-- `SSL_SERVER_CERT_DN=\\?"?([^\)\"]+)\\?"?\)` at the head of `s`.

The leading optionals are tried in regex preference order
(backslash and quote consumed first). -/
def matchSslDnAt (ci : Bool) (s : List Char) : Option String :=
  match dropLitC? ci "SSL_SERVER_CERT_DN=".toList s with
  | none => none
  | some r0 =>
    let starts : List (List Char) :=
      match r0 with
      | '\\' :: '"' :: r => [r, '"' :: r, r0]
      | '\\' :: r => [r, r0]
      | '"' :: r => [r, r0]
      | _ => [r0]
    starts.firstM fun start =>
      let run := start.takeWhile (fun c => c != ')' && c != '"')
      let rest := start.dropWhile (fun c => c != ')' && c != '"')
      if run.isEmpty then none else dnTryLengths run.reverse rest

/-- `jdbc:[^:]+://([^:/]+)` at the head of `s`. -/
def matchJdbcHostAt (s : List Char) : Option String :=
  match dropLit? "jdbc:".toList s with
  | none => none
  | some r0 =>
    let run := r0.takeWhile (fun c => c != ':')
    let r1 := r0.dropWhile (fun c => c != ':')
    if run.isEmpty then none
    else
      match dropLit? "://".toList r1 with
      | none => none
      | some r2 =>
        let cap := r2.takeWhile (fun c => c != ':' && c != '/')
        if cap.isEmpty then none else some (String.mk cap)

/-- `://[^:]+:(\d+)` at the head of `s`. -/
def matchPortAt (s : List Char) : Option String :=
  match dropLit? "://".toList s with
  | none => none
  | some r0 =>
    let run := r0.takeWhile (fun c => c != ':')
    let r1 := r0.dropWhile (fun c => c != ':')
    if run.isEmpty then none
    else
      match r1 with
      | ':' :: r2 =>
        let digits := r2.takeWhile (fun c => c.isDigit)
        if digits.isEmpty then none else some (String.mk digits)
      | _ => none

/-- `://[^/]+/([^/?]+)` at the head of `s`. -/
def matchDbNameAt (s : List Char) : Option String :=
  match dropLit? "://".toList s with
  | none => none
  | some r0 =>
    let run := r0.takeWhile (fun c => c != '/')
    let r1 := r0.dropWhile (fun c => c != '/')
    if run.isEmpty then none
    else
      match r1 with
      | '/' :: r2 =>
        let cap := r2.takeWhile (fun c => c != '/' && c != '?')
        if cap.isEmpty then none else some (String.mk cap)
      | _ => none

/-- `[?&]key=([^&]+)` at the head of `s` (query-parameter extraction). -/
def matchQueryParamAt (key : List Char) (s : List Char) : Option String :=
  match s with
  | c :: r0 =>
    if c = '?' || c = '&' then
      match dropLit? (key ++ ['=']) r0 with
      | none => none
      | some r1 =>
        let cap := r1.takeWhile (fun c => c != '&')
        if cap.isEmpty then none else some (String.mk cap)
    else none
  | [] => none

/-! ## `parse_jdbc_url`

`DatabaseUtils.parse_jdbc_url` (src/database_utils.py, lines 41-110) and
`ConnectorComparator._parse_jdbc_url` (src/connector_comparator.py,
lines 774-851) are literally identical except that the Oracle-branch
`re.search` calls pass `re.IGNORECASE` in the former and nothing in the
latter; both detect the Oracle mode with the case-SENSITIVE Python test
`'@(DESCRIPTION=' in original_url`, and both run the standard-mode
regexes on the lowercased URL.  `oracleExtract ci` embeds the Oracle
branch, `standardExtract` the standard branch. -/

def oracleExtract (ci : Bool) (originalUrl : String) : ConfigMap :=
  let s := originalUrl.toList
  let m0 : ConfigMap := []
  let m1 :=
    match searchWith (matchParenCaptureAt ci "(HOST=".toList) s with
    | some h => cmInsert m0 "host" h
    | none => m0
  let m2 :=
    match searchWith (matchParenCaptureAt ci "(PORT=".toList) s with
    | some p => cmInsert m1 "port" p
    | none => m1
  let m3 :=
    match searchWith (matchConnectDataAt ci) s with
    | some kv => cmInsert (cmInsert m2 "db.connection.type" kv.1) "db.name" kv.2
    | none => m2
  match searchWith (matchSslDnAt ci) s with
  | some d => cmInsert m3 "ssl.server.cert.dn" d
  | none => m3

def standardExtract (url : String) : ConfigMap :=
  let s := url.toList
  let m0 : ConfigMap := []
  let m1 :=
    match searchWith matchJdbcHostAt s with
    | some h => cmInsert m0 "host" h
    | none => m0
  let m2 :=
    match searchWith matchPortAt s with
    | some p => cmInsert m1 "port" p
    | none => m1
  let m3 :=
    match searchWith matchDbNameAt s with
    | some d => cmInsert m2 "db.name" d
    | none => m2
  let m4 :=
    match searchWith (matchQueryParamAt "user".toList) s with
    | some u => cmInsert m3 "user" u
    | none => m3
  match searchWith (matchQueryParamAt "password".toList) s with
  | some p => cmInsert m4 "password" p
  | none => m4

/-- The Oracle-mode marker test (both sources): `'@(DESCRIPTION=' in original_url`. -/
def isOracleFormat (originalUrl : String) : Bool :=
  strContains originalUrl "@(DESCRIPTION="

namespace DatabaseUtils

/-- `DatabaseUtils.parse_jdbc_url` (src/database_utils.py, lines 41-110). -/
def parse_jdbc_url (urlArg : String) : ConfigMap :=
  let originalUrl := urlArg
  let url := strToLower urlArg
  if isOracleFormat originalUrl then oracleExtract true originalUrl
  else standardExtract url

end DatabaseUtils

namespace Comparator

/-- `ConnectorComparator._parse_jdbc_url` (src/connector_comparator.py,
lines 774-851; Oracle regexes without `re.IGNORECASE`). -/
def parse_jdbc_url (urlArg : String) : ConfigMap :=
  let originalUrl := urlArg
  let url := strToLower urlArg
  if isOracleFormat originalUrl then oracleExtract false originalUrl
  else standardExtract url

end Comparator

/-! ## Scalar JSON values

Template JSON fields such as `value`, `required` and `default_value` may
hold strings, booleans or numbers; `PyVal` models the values the
comparator actually inspects, with Python `str()` semantics. -/

inductive PyVal where
  | vstr (s : String)
  | vbool (b : Bool)
  | vint (n : Int)
  deriving DecidableEq, Repr

/-- Decimal digits of a natural number (structural fuel recursion). -/
def natDigitsAux : Nat → Nat → List Char
  | 0, _ => []
  | fuel + 1, n =>
    if n < 10 then [Char.ofNat (48 + n)]
    else natDigitsAux fuel (n / 10) ++ [Char.ofNat (48 + n % 10)]

/-- Decimal rendering of an integer, as Python `str(int)`. -/
def intStr (n : Int) : String :=
  match n with
  | .ofNat m => String.mk (natDigitsAux (m + 1) m)
  | .negSucc m => String.mk ('-' :: natDigitsAux (m + 2) (m + 1))

/-- Python `str(v)`. -/
def pyStr : PyVal → String
  | .vstr s => s
  | .vbool true => "True"
  | .vbool false => "False"
  | .vint n => intStr n

/-- Python truthiness of the scalar (`if template_id:` and friends). -/
def pyTruthy : PyVal → Bool
  | .vstr s => s ≠ ""
  | .vbool b => b
  | .vint n => n ≠ 0

/-! ## `TemplateConfigDef` and the SM-side property descriptor

`TemplateConfigDef` models one entry of a template's `config_defs`
array, restricted to the fields the comparator and the matcher read:
`name`, `required`, `internal`, `default_value`, `recommended_values`,
`description`, `section` and `metadata.direct_match`. -/

structure TemplateConfigDef where
  name : String
  required : PyVal := .vbool false
  internal : Bool := false
  default_value : Option PyVal := none
  recommended_values : List String := []
  description : String := ""
  sectionName : String := ""
  directMatch : Bool := false
  deriving DecidableEq, Repr

/-- An SM-side property descriptor (`sm_prop` dict) as consumed by
`SemanticMatcher.find_best_match`. -/
structure SmProp where
  name : String
  description : String := ""
  typeName : String := ""
  sectionName : String := ""
  deriving DecidableEq, Repr

/-! ## `SemanticMatcher.find_best_match` (src/semantic_matcher.py, lines 138-186)

`calculate_similarity` combines an environment-dependent sentence
embedding (weight 0.7; 0.0 when the backend is unavailable) with a
string-similarity ratio (weight 0.3).  The combined score is therefore
passed as an explicit function parameter `score`; every theorem below
holds for all such functions. -/

structure MatchResult where
  matched_fm_property : TemplateConfigDef
  similarity_score : ℚ
  match_type : String
  deriving DecidableEq, Repr

/-- The `fm_properties` dict lookup, keyed by config name. -/
def fmLookup (props : List TemplateConfigDef) (n : String) : Option TemplateConfigDef :=
  props.find? (fun d => d.name = n)

/-- The step-2 scoring loop of `find_best_match`: `best_match` starts as
`None`, `best_score` as `0.0`, candidates flagged
`metadata.direct_match` are skipped and the running best is replaced on
strictly greater similarity. -/
def bestLoop (f : TemplateConfigDef → ℚ) :
    List TemplateConfigDef → Option TemplateConfigDef → ℚ → Option TemplateConfigDef × ℚ
  | [], best, bestScore => (best, bestScore)
  | d :: rest, best, bestScore =>
    if d.directMatch then bestLoop f rest best bestScore
    else
      let s := f d
      if s > bestScore then bestLoop f rest (some d) s
      else bestLoop f rest best bestScore

/-- `SemanticMatcher.find_best_match`. -/
def find_best_match (score : SmProp → TemplateConfigDef → ℚ) (sm_property : SmProp)
    (fm_properties : List TemplateConfigDef) (semantic_threshold : ℚ) : Option MatchResult :=
  match fmLookup fm_properties sm_property.name with
  | some d => some ⟨d, 1, "exact"⟩
  | none =>
    let bl := bestLoop (score sm_property) fm_properties none 0
    match bl.1 with
    | some d => if bl.2 ≥ semantic_threshold then some ⟨d, bl.2, "semantic"⟩ else none
    | none => none

/-- The maximum similarity over the candidates that are not flagged
`metadata.direct_match`, started at the loop's initial `0.0`. -/
def maxCandidateScore (f : TemplateConfigDef → ℚ) (props : List TemplateConfigDef) : ℚ :=
  ((props.filter fun d => !d.directMatch).map f).foldl max 0

theorem bestLoop_snd (f : TemplateConfigDef → ℚ) :
    ∀ (l : List TemplateConfigDef) (b0 : Option TemplateConfigDef) (s0 : ℚ),
      (bestLoop f l b0 s0).2 = ((l.filter fun d => !d.directMatch).map f).foldl max s0 := by
  intro l
  induction l with
  | nil => intro b0 s0; simp [bestLoop]
  | cons d rest ih =>
    intro b0 s0
    by_cases hd : d.directMatch
    · simp [bestLoop, hd, ih]
    · by_cases hs : f d > s0
      · have hmax : max s0 (f d) = f d := max_eq_right (le_of_lt hs)
        simp [bestLoop, hd, hs, ih, hmax]
      · have hmax : max s0 (f d) = s0 := max_eq_left (le_of_not_lt hs)
        simp [bestLoop, hd, hs, ih, hmax]

theorem bestLoop_fst (f : TemplateConfigDef → ℚ) :
    ∀ (l : List TemplateConfigDef) (b0 : Option TemplateConfigDef) (s0 : ℚ),
      ((bestLoop f l b0 s0).1 = b0 ∧ (bestLoop f l b0 s0).2 = s0) ∨
      (∃ d, d ∈ l ∧ d.directMatch = false ∧ (bestLoop f l b0 s0).1 = some d ∧
        f d = (bestLoop f l b0 s0).2) := by
  intro l
  induction l with
  | nil => intro b0 s0; left; simp [bestLoop]
  | cons d rest ih =>
    intro b0 s0
    by_cases hd : d.directMatch
    · rcases ih b0 s0 with h | ⟨d', hmem, hdm, hfst, hscore⟩
      · left; simpa [bestLoop, hd] using h
      · right
        exact ⟨d', List.mem_cons_of_mem _ hmem, hdm, by simpa [bestLoop, hd] using hfst,
          by simpa [bestLoop, hd] using hscore⟩
    · by_cases hs : f d > s0
      · rcases ih (some d) (f d) with ⟨h1, h2⟩ | ⟨d', hmem, hdm, hfst, hscore⟩
        · right
          refine ⟨d, List.mem_cons_self d rest, by simpa using hd, ?_, ?_⟩
          · simpa [bestLoop, hd, hs] using h1
          · simp [bestLoop, hd, hs, h2]
        · right
          exact ⟨d', List.mem_cons_of_mem _ hmem, hdm, by simpa [bestLoop, hd, hs] using hfst,
            by simpa [bestLoop, hd, hs] using hscore⟩
      · rcases ih b0 s0 with h | ⟨d', hmem, hdm, hfst, hscore⟩
        · left; simpa [bestLoop, hd, hs] using h
        · right
          exact ⟨d', List.mem_cons_of_mem _ hmem, hdm, by simpa [bestLoop, hd, hs] using hfst,
            by simpa [bestLoop, hd, hs] using hscore⟩

/-- C2: Exact-match precedence in `find_best_match`: whenever the SM
property name is literally a key of the FM property set, the result is
that property with score `1.0` and type `"exact"`, and the result does
not depend on the similarity-scoring function at all (no similarity is
computed against any candidate). -/
theorem claim_C2_exact_match_precedence
    (sm : SmProp) (props : List TemplateConfigDef) (th : ℚ)
    (h : (fmLookup props sm.name).isSome = true) :
    ∃ d, fmLookup props sm.name = some d ∧
      (∀ score, find_best_match score sm props th = some ⟨d, 1, "exact"⟩) ∧
      (∀ score₁ score₂,
        find_best_match score₁ sm props th = find_best_match score₂ sm props th) := by
  obtain ⟨d, hd⟩ := Option.isSome_iff_exists.mp h
  refine ⟨d, hd, fun score => ?_, fun s₁ s₂ => ?_⟩
  · simp [find_best_match, hd]
  · simp [find_best_match, hd]

/-- Witness for C2 at a concrete input: the name `input.data.format`
occurs literally among the FM properties, so the match is exact with
score `1.0` for the all-zero scoring function. -/
theorem claim_C2_exact_match_precedence_witness :
    find_best_match (fun _ _ => 0) { name := "input.data.format" }
      [{ name := "input.data.format", description := "Sets the input format" }] (7 / 10) =
      some ⟨{ name := "input.data.format", description := "Sets the input format" }, 1, "exact"⟩ := by
  obtain ⟨d, hd, hall, _⟩ :=
    claim_C2_exact_match_precedence { name := "input.data.format" }
      [{ name := "input.data.format", description := "Sets the input format" }] (7 / 10) rfl
  have hD : fmLookup
      [{ name := "input.data.format", description := "Sets the input format" : TemplateConfigDef }]
      "input.data.format" =
      some { name := "input.data.format", description := "Sets the input format" } := rfl
  rw [hD] at hd
  cases hd
  exact hall _

/-- C3: Inclusive threshold in `find_best_match`: with no exact name
match, the highest-scoring candidate among those not flagged
`metadata.direct_match` is returned as a `"semantic"` match exactly when
its score reaches the threshold (the comparison is `>=`, so a best
score equal to the threshold, e.g. exactly 0.70 against the default
0.7, is accepted), and any best score strictly below the threshold
yields no match. -/
theorem claim_C3_inclusive_threshold
    (score : SmProp → TemplateConfigDef → ℚ) (sm : SmProp)
    (props : List TemplateConfigDef) (th : ℚ)
    (hnoexact : fmLookup props sm.name = none) (hth : 0 < th) :
    (th ≤ maxCandidateScore (score sm) props →
      ∃ d, d ∈ props ∧ d.directMatch = false ∧
        score sm d = maxCandidateScore (score sm) props ∧
        find_best_match score sm props th =
          some ⟨d, maxCandidateScore (score sm) props, "semantic"⟩) ∧
    (maxCandidateScore (score sm) props < th →
      find_best_match score sm props th = none) := by
  have hsnd : (bestLoop (score sm) props none 0).2 = maxCandidateScore (score sm) props := by
    simpa [maxCandidateScore] using bestLoop_snd (score sm) props none 0
  rcases bestLoop_fst (score sm) props none 0 with ⟨h1, h2⟩ | ⟨d, hmem, hdm, hfst, hscore⟩
  · constructor
    · intro hM
      exfalso
      have hM0 : maxCandidateScore (score sm) props = 0 := by rw [← hsnd, h2]
      rw [hM0] at hM
      exact absurd (lt_of_lt_of_le hth hM) (lt_irrefl 0)
    · intro _
      simp [find_best_match, hnoexact, h1]
  · constructor
    · intro hM
      refine ⟨d, hmem, hdm, hscore.trans hsnd, ?_⟩
      simp [find_best_match, hnoexact, hfst, hsnd, hM]
    · intro hM
      have hlt : ¬(bestLoop (score sm) props none 0).2 ≥ th := by
        rw [hsnd]; exact not_le.mpr hM
      simp [find_best_match, hnoexact, hfst, hlt]

/-- Witness for C3 at a concrete input: a single non-direct-match
candidate scored exactly `0.70` against the default threshold `0.7` is
accepted as a `"semantic"` match. -/
theorem claim_C3_inclusive_threshold_witness :
    find_best_match (fun _ _ => 7 / 10) { name := "connection.hostname" }
      [{ name := "connection.host" }] (7 / 10) =
      some ⟨{ name := "connection.host" }, 7 / 10, "semantic"⟩ := by
  have hM : maxCandidateScore ((fun (_ : SmProp) (_ : TemplateConfigDef) => (7 : ℚ) / 10)
      { name := "connection.hostname" }) [{ name := "connection.host" }] = 7 / 10 := by
    simp [maxCandidateScore]
    norm_num
  obtain ⟨d, hmem, _, _, hres⟩ :=
    (claim_C3_inclusive_threshold (fun _ _ => 7 / 10) { name := "connection.hostname" }
      [{ name := "connection.host" }] (7 / 10) rfl (by norm_num)).1 (by rw [hM])
  have hd : d = { name := "connection.host" } := by simpa using hmem
  subst hd
  rw [hM] at hres
  exact hres

/-! ## Transform/predicate classification
(`ConnectorComparator.classify_transform_configs_with_full_chain`,
src/connector_comparator.py, lines 343-432)

`get_transforms_config` merely fetches the allowed transform-type set
(HTTP with a local-file fallback) and delegates here, so the set is a
parameter. -/

/-- Python `", ".join(aliases)`. -/
def joinCommaSpace : List String → String
  | [] => ""
  | [x] => x
  | x :: rest => x ++ ", " ++ joinCommaSpace rest

/-- `[alias.strip() for alias in chain.split(",") if alias.strip()]`. -/
def chainAliases (chain : String) : List String :=
  ((strSplitOn chain ',').map pyStrip).filter (fun a => a ≠ "")

structure TransformClassification where
  allowed : ConfigMap
  disallowed : ConfigMap
  mapping_errors : List String
  deriving DecidableEq, Repr

/-- Accumulated state of the two classification loops: the three result
components plus the local variables `allowed_aliases`,
`disallowed_aliases`, `disallowed_predicates`,
`allowed_predicate_aliases` and `disallowed_predicate_aliases`. The
Python `disallowed_predicates` set only ever answers membership
queries, so a list models it. -/
structure TCAcc where
  allowedMap : ConfigMap := []
  disallowedMap : ConfigMap := []
  mappingErrors : List String := []
  allowedAliases : List String := []
  disallowedAliases : List String := []
  disallowedPredicates : List String := []
  allowedPredicateAliases : List String := []
  disallowedPredicateAliases : List String := []
  deriving Repr

/-- The `for k, v in config.items()` loop body of the two disallowed
branches: copy a `transforms.<alias>.` key into the bucket and record
the value of `transforms.<alias>.predicate`. -/
def disallowedKeyStep (aName : String) (acc : ConfigMap × List String)
    (kv : String × String) : ConfigMap × List String :=
  if strStartsWith kv.1 ("transforms." ++ aName ++ ".") then
    let m' := cmInsert acc.1 kv.1 kv.2
    if kv.1 = "transforms." ++ aName ++ ".predicate" then (m', acc.2 ++ [kv.2])
    else (m', acc.2)
  else acc

def addAliasKeysDisallowed (config : ConfigMap) (aName : String)
    (m : ConfigMap) (preds : List String) : ConfigMap × List String :=
  config.foldl (disallowedKeyStep aName) (m, preds)

/-- The allowed-branch key copy step for a transform alias. -/
def allowedKeyStep (aName : String) (acc : ConfigMap) (kv : String × String) : ConfigMap :=
  if strStartsWith kv.1 ("transforms." ++ aName ++ ".") then cmInsert acc kv.1 kv.2
  else acc

def addAliasKeysAllowed (config : ConfigMap) (aName : String) (m : ConfigMap) : ConfigMap :=
  config.foldl (allowedKeyStep aName) m

/-- The key copy step for a predicate alias (either bucket). -/
def predicateKeyStep (aName : String) (acc : ConfigMap) (kv : String × String) : ConfigMap :=
  if strStartsWith kv.1 ("predicates." ++ aName ++ ".") then cmInsert acc kv.1 kv.2
  else acc

def addPredicateKeys (config : ConfigMap) (aName : String) (m : ConfigMap) : ConfigMap :=
  config.foldl (predicateKeyStep aName) m

/-- One iteration of the transform-alias loop. -/
def transformAliasStep (config : ConfigMap) (allowedTypes : List String)
    (acc : TCAcc) (aName : String) : TCAcc :=
  let ty := (cmGet config ("transforms." ++ aName ++ ".type")).getD ""
  if ty = "" then
    let res := addAliasKeysDisallowed config aName acc.disallowedMap acc.disallowedPredicates
    { acc with
      disallowedAliases := acc.disallowedAliases ++ [aName]
      mappingErrors :=
        acc.mappingErrors ++ ["Transform \x27" ++ aName ++ "\x27 has no type specified"]
      disallowedMap := res.1
      disallowedPredicates := res.2 }
  else if allowedTypes.contains ty then
    { acc with
      allowedAliases := acc.allowedAliases ++ [aName]
      allowedMap := addAliasKeysAllowed config aName acc.allowedMap }
  else
    let res := addAliasKeysDisallowed config aName acc.disallowedMap acc.disallowedPredicates
    { acc with
      disallowedAliases := acc.disallowedAliases ++ [aName]
      mappingErrors :=
        acc.mappingErrors ++
          ["Transform \x27" ++ aName ++ "\x27 of type \x27" ++ ty ++
            "\x27 is not supported in Fully Managed Connector. Potentially Custom SMT can be used."]
      disallowedMap := res.1
      disallowedPredicates := res.2 }

/-- One iteration of the predicate-alias loop. -/
def predicateAliasStep (config : ConfigMap) (acc : TCAcc) (aName : String) : TCAcc :=
  if acc.disallowedPredicates.contains aName then
    { acc with
      disallowedPredicateAliases := acc.disallowedPredicateAliases ++ [aName]
      mappingErrors :=
        acc.mappingErrors ++
          ["Predicate \x27" ++ aName ++
            "\x27 is filtered out because it\x27s associated with an unsupported transform."]
      disallowedMap := addPredicateKeys config aName acc.disallowedMap }
  else
    { acc with
      allowedPredicateAliases := acc.allowedPredicateAliases ++ [aName]
      allowedMap := addPredicateKeys config aName acc.allowedMap }

/-- The accumulated state after both loops. -/
def tcAccOf (config : ConfigMap) (allowedTypes : List String) : TCAcc :=
  let acc1 := (chainAliases (cmGetD config "transforms" "")).foldl
    (transformAliasStep config allowedTypes) {}
  (chainAliases (cmGetD config "predicates" "")).foldl (predicateAliasStep config) acc1

/-- `classify_transform_configs_with_full_chain`. -/
def classify_transform_configs_with_full_chain (config : ConfigMap)
    (allowedTypes : List String) : TransformClassification :=
  let acc := tcAccOf config allowedTypes
  let am1 :=
    if acc.allowedAliases ≠ [] then
      cmInsert acc.allowedMap "transforms" (joinCommaSpace acc.allowedAliases)
    else acc.allowedMap
  let dm1 :=
    if acc.disallowedAliases ≠ [] then
      cmInsert acc.disallowedMap "transforms" (joinCommaSpace acc.disallowedAliases)
    else acc.disallowedMap
  let am2 :=
    if acc.allowedPredicateAliases ≠ [] then
      cmInsert am1 "predicates" (joinCommaSpace acc.allowedPredicateAliases)
    else am1
  let dm2 :=
    if acc.disallowedPredicateAliases ≠ [] then
      cmInsert dm1 "predicates" (joinCommaSpace acc.disallowedPredicateAliases)
    else dm1
  ⟨am2, dm2, acc.mappingErrors⟩

/-! ### Fold combinators used by the classification proofs -/

theorem foldl_preserve {β α : Type} {P : β → Prop} {step : β → α → β}
    (hP : ∀ acc a, P acc → P (step acc a)) :
    ∀ (l : List α) (acc : β), P acc → P (l.foldl step acc) := by
  intro l
  induction l with
  | nil => intro acc h; exact h
  | cons a rest ih => intro acc h; exact ih (step acc a) (hP acc a h)

theorem foldl_establish {β α : Type} {I P : β → Prop} {step : β → α → β} {x : α}
    (hI : ∀ acc a, I acc → I (step acc a))
    (hP : ∀ acc a, P acc → P (step acc a))
    (hx : ∀ acc, I acc → P (step acc x)) :
    ∀ (l : List α) (acc : β), I acc → x ∈ l → P (l.foldl step acc) := by
  intro l
  induction l with
  | nil => intro acc _ hmem; cases hmem
  | cons a rest ih =>
    intro acc hIacc hmem
    rcases List.mem_cons.mp hmem with rfl | hmem'
    · exact foldl_preserve hP rest (step acc x) (hx acc hIacc)
    · exact ih (step acc a) (hI acc a hIacc) hmem'

/-- A string extended past a trailing-dot prefix starts with that prefix. -/
theorem strStartsWith_append (p s : String) : strStartsWith (p ++ s) p = true := by
  rw [strStartsWith, List.isPrefixOf_iff_prefix]
  simp [String.toList]

/-! ### Properties of the key-copy folds -/

theorem disallowedKeyStep_mono_map (aName : String) (acc : ConfigMap × List String)
    (kv : String × String) (k : String) (h : cmContains acc.1 k = true) :
    cmContains (disallowedKeyStep aName acc kv).1 k = true := by
  unfold disallowedKeyStep
  split
  · split
    · exact cmContains_cmInsert_of_contains _ _ _ _ h
    · exact cmContains_cmInsert_of_contains _ _ _ _ h
  · exact h

theorem disallowedKeyStep_mono_preds (aName : String) (acc : ConfigMap × List String)
    (kv : String × String) (x : String) (h : x ∈ acc.2) :
    x ∈ (disallowedKeyStep aName acc kv).2 := by
  unfold disallowedKeyStep
  split
  · split
    · exact List.mem_append_left _ h
    · exact h
  · exact h

theorem addAliasKeysDisallowed_mono_map (config : ConfigMap) (aName : String)
    (m : ConfigMap) (preds : List String) (k : String) (h : cmContains m k = true) :
    cmContains (addAliasKeysDisallowed config aName m preds).1 k = true := by
  unfold addAliasKeysDisallowed
  exact foldl_preserve (P := fun acc => cmContains acc.1 k = true)
    (fun acc kv hacc => disallowedKeyStep_mono_map aName acc kv k hacc) config (m, preds) h

theorem addAliasKeysDisallowed_mono_preds (config : ConfigMap) (aName : String)
    (m : ConfigMap) (preds : List String) (x : String) (h : x ∈ preds) :
    x ∈ (addAliasKeysDisallowed config aName m preds).2 := by
  unfold addAliasKeysDisallowed
  exact foldl_preserve (P := fun acc => x ∈ acc.2)
    (fun acc kv hacc => disallowedKeyStep_mono_preds aName acc kv x hacc) config (m, preds) h

theorem addAliasKeysDisallowed_adds_key (aName : String) :
    ∀ (config : ConfigMap) (m : ConfigMap) (preds : List String) (k v : String),
      (k, v) ∈ config → strStartsWith k ("transforms." ++ aName ++ ".") = true →
      cmContains (addAliasKeysDisallowed config aName m preds).1 k = true := by
  intro config
  induction config with
  | nil => intro m preds k v hmem _; cases hmem
  | cons kv rest ih =>
    intro m preds k v hmem hpre
    rcases List.mem_cons.mp hmem with rfl | hmem'
    · show cmContains (rest.foldl (disallowedKeyStep aName)
        (disallowedKeyStep aName (m, preds) (k, v))).1 k = true
      refine foldl_preserve (P := fun acc => cmContains acc.1 k = true)
        (fun acc kv hacc => disallowedKeyStep_mono_map aName acc kv k hacc) rest _ ?_
      unfold disallowedKeyStep
      simp only [hpre]
      split
      · split <;> simp [cmContains, cmGet_cmInsert_self]
      · simp_all
    · exact ih _ _ k v hmem' hpre

theorem addAliasKeysDisallowed_adds_pred (aName : String) :
    ∀ (config : ConfigMap) (m : ConfigMap) (preds : List String) (p : String),
      ("transforms." ++ aName ++ ".predicate", p) ∈ config →
      p ∈ (addAliasKeysDisallowed config aName m preds).2 := by
  intro config
  induction config with
  | nil => intro m preds p hmem; cases hmem
  | cons kv rest ih =>
    intro m preds p hmem
    rcases List.mem_cons.mp hmem with rfl | hmem'
    · show p ∈ (rest.foldl (disallowedKeyStep aName)
        (disallowedKeyStep aName (m, preds) ("transforms." ++ aName ++ ".predicate", p))).2
      refine foldl_preserve (P := fun acc => p ∈ acc.2)
        (fun acc kv hacc => disallowedKeyStep_mono_preds aName acc kv p hacc) rest _ ?_
      unfold disallowedKeyStep
      have hpre : strStartsWith ("transforms." ++ aName ++ ".predicate")
          ("transforms." ++ aName ++ ".") = true := by
        have hsplit : "transforms." ++ aName ++ ".predicate" =
            ("transforms." ++ aName ++ ".") ++ "predicate" := by
          have hdot : (".predicate" : String) = "." ++ "predicate" := rfl
          rw [hdot, ← String.append_assoc]
        rw [hsplit]
        exact strStartsWith_append _ _
      simp [hpre]
    · exact ih _ _ p hmem'

theorem allowedKeyStep_mono (aName : String) (acc : ConfigMap) (kv : String × String)
    (k : String) (h : cmContains acc k = true) :
    cmContains (allowedKeyStep aName acc kv) k = true := by
  unfold allowedKeyStep
  split
  · exact cmContains_cmInsert_of_contains _ _ _ _ h
  · exact h

theorem addAliasKeysAllowed_mono (config : ConfigMap) (aName : String) (m : ConfigMap)
    (k : String) (h : cmContains m k = true) :
    cmContains (addAliasKeysAllowed config aName m) k = true := by
  unfold addAliasKeysAllowed
  exact foldl_preserve (P := fun acc => cmContains acc k = true)
    (fun acc kv hacc => allowedKeyStep_mono aName acc kv k hacc) config m h

theorem addAliasKeysAllowed_adds (aName : String) :
    ∀ (config : ConfigMap) (m : ConfigMap) (k v : String),
      (k, v) ∈ config → strStartsWith k ("transforms." ++ aName ++ ".") = true →
      cmContains (addAliasKeysAllowed config aName m) k = true := by
  intro config
  induction config with
  | nil => intro m k v hmem _; cases hmem
  | cons kv rest ih =>
    intro m k v hmem hpre
    rcases List.mem_cons.mp hmem with rfl | hmem'
    · show cmContains (rest.foldl (allowedKeyStep aName)
        (allowedKeyStep aName m (k, v))) k = true
      refine foldl_preserve (P := fun acc => cmContains acc k = true)
        (fun acc kv hacc => allowedKeyStep_mono aName acc kv k hacc) rest _ ?_
      unfold allowedKeyStep
      simp [hpre, cmContains, cmGet_cmInsert_self]
    · exact ih _ k v hmem' hpre

theorem predicateKeyStep_mono (aName : String) (acc : ConfigMap) (kv : String × String)
    (k : String) (h : cmContains acc k = true) :
    cmContains (predicateKeyStep aName acc kv) k = true := by
  unfold predicateKeyStep
  split
  · exact cmContains_cmInsert_of_contains _ _ _ _ h
  · exact h

theorem addPredicateKeys_mono (config : ConfigMap) (aName : String) (m : ConfigMap)
    (k : String) (h : cmContains m k = true) :
    cmContains (addPredicateKeys config aName m) k = true := by
  unfold addPredicateKeys
  exact foldl_preserve (P := fun acc => cmContains acc k = true)
    (fun acc kv hacc => predicateKeyStep_mono aName acc kv k hacc) config m h

theorem addPredicateKeys_adds (aName : String) :
    ∀ (config : ConfigMap) (m : ConfigMap) (k v : String),
      (k, v) ∈ config → strStartsWith k ("predicates." ++ aName ++ ".") = true →
      cmContains (addPredicateKeys config aName m) k = true := by
  intro config
  induction config with
  | nil => intro m k v hmem _; cases hmem
  | cons kv rest ih =>
    intro m k v hmem hpre
    rcases List.mem_cons.mp hmem with rfl | hmem'
    · show cmContains (rest.foldl (predicateKeyStep aName)
        (predicateKeyStep aName m (k, v))) k = true
      refine foldl_preserve (P := fun acc => cmContains acc k = true)
        (fun acc kv hacc => predicateKeyStep_mono aName acc kv k hacc) rest _ ?_
      unfold predicateKeyStep
      simp [hpre, cmContains, cmGet_cmInsert_self]
    · exact ih _ k v hmem' hpre

/-! ### Properties of the per-alias loop steps -/

theorem transformAliasStep_mono_disallowedMap (config : ConfigMap) (allowedTypes : List String)
    (acc : TCAcc) (a : String) (k : String)
    (h : cmContains acc.disallowedMap k = true) :
    cmContains (transformAliasStep config allowedTypes acc a).disallowedMap k = true := by
  unfold transformAliasStep
  dsimp only
  split
  · exact addAliasKeysDisallowed_mono_map _ _ _ _ k h
  · split
    · exact h
    · exact addAliasKeysDisallowed_mono_map _ _ _ _ k h

theorem transformAliasStep_mono_allowedMap (config : ConfigMap) (allowedTypes : List String)
    (acc : TCAcc) (a : String) (k : String)
    (h : cmContains acc.allowedMap k = true) :
    cmContains (transformAliasStep config allowedTypes acc a).allowedMap k = true := by
  unfold transformAliasStep
  dsimp only
  split
  · exact h
  · split
    · exact addAliasKeysAllowed_mono _ _ _ k h
    · exact h

theorem transformAliasStep_mono_preds (config : ConfigMap) (allowedTypes : List String)
    (acc : TCAcc) (a : String) (x : String)
    (h : x ∈ acc.disallowedPredicates) :
    x ∈ (transformAliasStep config allowedTypes acc a).disallowedPredicates := by
  unfold transformAliasStep
  dsimp only
  split
  · exact addAliasKeysDisallowed_mono_preds _ _ _ _ x h
  · split
    · exact h
    · exact addAliasKeysDisallowed_mono_preds _ _ _ _ x h

theorem transformAliasStep_allowedPredAliases (config : ConfigMap) (allowedTypes : List String)
    (acc : TCAcc) (a : String) :
    (transformAliasStep config allowedTypes acc a).allowedPredicateAliases =
      acc.allowedPredicateAliases := by
  unfold transformAliasStep
  dsimp only
  split
  · rfl
  · split <;> rfl

theorem predicateAliasStep_mono_disallowedMap (config : ConfigMap)
    (acc : TCAcc) (a : String) (k : String)
    (h : cmContains acc.disallowedMap k = true) :
    cmContains (predicateAliasStep config acc a).disallowedMap k = true := by
  unfold predicateAliasStep
  split
  · exact addPredicateKeys_mono _ _ _ k h
  · exact h

theorem predicateAliasStep_mono_allowedMap (config : ConfigMap)
    (acc : TCAcc) (a : String) (k : String)
    (h : cmContains acc.allowedMap k = true) :
    cmContains (predicateAliasStep config acc a).allowedMap k = true := by
  unfold predicateAliasStep
  split
  · exact h
  · exact addPredicateKeys_mono _ _ _ k h

theorem predicateAliasStep_preds_eq (config : ConfigMap) (acc : TCAcc) (a : String) :
    (predicateAliasStep config acc a).disallowedPredicates = acc.disallowedPredicates := by
  unfold predicateAliasStep
  split <;> rfl

theorem predicateAliasStep_not_allowed_alias (config : ConfigMap) (acc : TCAcc) (a : String)
    (p : String) (hp : p ∈ acc.disallowedPredicates)
    (hnp : p ∉ acc.allowedPredicateAliases) :
    p ∉ (predicateAliasStep config acc a).allowedPredicateAliases := by
  unfold predicateAliasStep
  split
  · exact hnp
  · intro hmem
    rcases List.mem_append.mp hmem with h | h
    · exact hnp h
    · rename_i hcontains
      have ha : p = a := by simpa using h
      subst ha
      exact hcontains (List.elem_eq_true_of_mem hp)

/-- C8: Transform/predicate coupling in
`classify_transform_configs_with_full_chain`: when the transforms chain
contains an alias `t1` whose type is in the allowed set and an alias
`t2` whose type is present but not allowed, and `transforms.t2.predicate`
names the predicate alias `p1` of the predicates chain, then every
`transforms.t2.*` key and every `predicates.p1.*` key of the config
lands in the `disallowed` bucket, every `transforms.t1.*` key lands in
the `allowed` bucket, and `p1` is not among the allowed predicate
aliases from which the output `predicates` entry is rebuilt — even
though `p1`'s own type is never compared with the allowed set. -/
theorem claim_C8_transform_predicate_coupling
    (config : ConfigMap) (allowedTypes : List String) (t1 t2 p1 ty1 ty2 : String)
    (hT1mem : t1 ∈ chainAliases (cmGetD config "transforms" ""))
    (hT2mem : t2 ∈ chainAliases (cmGetD config "transforms" ""))
    (hty1 : cmGet config ("transforms." ++ t1 ++ ".type") = some ty1)
    (hty1ne : ty1 ≠ "") (hty1allowed : allowedTypes.contains ty1 = true)
    (hty2 : cmGet config ("transforms." ++ t2 ++ ".type") = some ty2)
    (hty2ne : ty2 ≠ "") (hty2dis : allowedTypes.contains ty2 = false)
    (hpredentry : ("transforms." ++ t2 ++ ".predicate", p1) ∈ config)
    (hp1mem : p1 ∈ chainAliases (cmGetD config "predicates" "")) :
    (∀ k v, (k, v) ∈ config → strStartsWith k ("transforms." ++ t2 ++ ".") = true →
      cmContains (classify_transform_configs_with_full_chain config allowedTypes).disallowed
        k = true) ∧
    (∀ k v, (k, v) ∈ config → strStartsWith k ("predicates." ++ p1 ++ ".") = true →
      cmContains (classify_transform_configs_with_full_chain config allowedTypes).disallowed
        k = true) ∧
    (∀ k v, (k, v) ∈ config → strStartsWith k ("transforms." ++ t1 ++ ".") = true →
      cmContains (classify_transform_configs_with_full_chain config allowedTypes).allowed
        k = true) ∧
    p1 ∉ (tcAccOf config allowedTypes).allowedPredicateAliases := by
  -- abbreviations for the two loop folds
  set tAliases := chainAliases (cmGetD config "transforms" "") with htA
  set pAliases := chainAliases (cmGetD config "predicates" "") with hpA
  set acc1 := tAliases.foldl (transformAliasStep config allowedTypes) {} with hacc1
  set acc2 := pAliases.foldl (predicateAliasStep config) acc1 with hacc2
  have hAccOf : tcAccOf config allowedTypes = acc2 := by
    rw [tcAccOf]
  -- the disallowed step taken for t2 establishes both map keys and the predicate record
  have ht2step : ∀ acc : TCAcc,
      ((∀ k v, (k, v) ∈ config → strStartsWith k ("transforms." ++ t2 ++ ".") = true →
        cmContains (transformAliasStep config allowedTypes acc t2).disallowedMap k = true) ∧
       p1 ∈ (transformAliasStep config allowedTypes acc t2).disallowedPredicates) := by
    intro acc
    unfold transformAliasStep
    rw [hty2]
    simp only [Option.getD_some]
    rw [if_neg hty2ne, if_neg (by rw [hty2dis]; exact Bool.false_ne_true)]
    constructor
    · intro k v hkv hpre
      exact addAliasKeysDisallowed_adds_key t2 config _ _ k v hkv hpre
    · exact addAliasKeysDisallowed_adds_pred t2 config _ _ p1 hpredentry
  -- the allowed step taken for t1
  have ht1step : ∀ acc : TCAcc,
      ∀ k v, (k, v) ∈ config → strStartsWith k ("transforms." ++ t1 ++ ".") = true →
        cmContains (transformAliasStep config allowedTypes acc t1).allowedMap k = true := by
    intro acc k v hkv hpre
    unfold transformAliasStep
    rw [hty1]
    simp only [Option.getD_some]
    rw [if_neg hty1ne, if_pos hty1allowed]
    exact addAliasKeysAllowed_adds t1 config _ k v hkv hpre
  -- after the transforms loop
  have hP2 : (∀ k v, (k, v) ∈ config → strStartsWith k ("transforms." ++ t2 ++ ".") = true →
      cmContains acc1.disallowedMap k = true) ∧ p1 ∈ acc1.disallowedPredicates := by
    rw [hacc1]
    exact foldl_establish (I := fun _ => True)
      (P := fun acc => (∀ k v, (k, v) ∈ config →
        strStartsWith k ("transforms." ++ t2 ++ ".") = true →
        cmContains acc.disallowedMap k = true) ∧ p1 ∈ acc.disallowedPredicates)
      (fun _ _ _ => trivial)
      (fun acc a hacc =>
        ⟨fun k v hkv hpre => transformAliasStep_mono_disallowedMap config allowedTypes acc a k
            (hacc.1 k v hkv hpre),
         transformAliasStep_mono_preds config allowedTypes acc a p1 hacc.2⟩)
      (fun acc _ => ht2step acc) tAliases {} trivial hT2mem
  have hP1 : ∀ k v, (k, v) ∈ config → strStartsWith k ("transforms." ++ t1 ++ ".") = true →
      cmContains acc1.allowedMap k = true := by
    rw [hacc1]
    exact foldl_establish (I := fun _ => True)
      (P := fun acc => ∀ k v, (k, v) ∈ config →
        strStartsWith k ("transforms." ++ t1 ++ ".") = true →
        cmContains acc.allowedMap k = true)
      (fun _ _ _ => trivial)
      (fun acc a hacc k v hkv hpre =>
        transformAliasStep_mono_allowedMap config allowedTypes acc a k (hacc k v hkv hpre))
      (fun acc _ => ht1step acc) tAliases {} trivial hT1mem
  have hEmptyAllowedPred : acc1.allowedPredicateAliases = [] := by
    rw [hacc1]
    exact foldl_preserve (P := fun acc : TCAcc => acc.allowedPredicateAliases = [])
      (fun acc a hacc => by
        dsimp only at hacc ⊢
        rw [transformAliasStep_allowedPredAliases, hacc]) tAliases {} rfl
  -- after the predicates loop
  have hP2' : ∀ k v, (k, v) ∈ config → strStartsWith k ("transforms." ++ t2 ++ ".") = true →
      cmContains acc2.disallowedMap k = true := by
    rw [hacc2]
    intro k v hkv hpre
    exact foldl_preserve (P := fun acc => cmContains acc.disallowedMap k = true)
      (fun acc a hacc => predicateAliasStep_mono_disallowedMap config acc a k hacc)
      pAliases acc1 (hP2.1 k v hkv hpre)
  have hP1' : ∀ k v, (k, v) ∈ config → strStartsWith k ("transforms." ++ t1 ++ ".") = true →
      cmContains acc2.allowedMap k = true := by
    rw [hacc2]
    intro k v hkv hpre
    exact foldl_preserve (P := fun acc => cmContains acc.allowedMap k = true)
      (fun acc a hacc => predicateAliasStep_mono_allowedMap config acc a k hacc)
      pAliases acc1 (hP1 k v hkv hpre)
  have hP3 : ∀ k v, (k, v) ∈ config → strStartsWith k ("predicates." ++ p1 ++ ".") = true →
      cmContains acc2.disallowedMap k = true := by
    rw [hacc2]
    have := foldl_establish (I := fun acc : TCAcc => p1 ∈ acc.disallowedPredicates)
      (P := fun acc => ∀ k v, (k, v) ∈ config →
        strStartsWith k ("predicates." ++ p1 ++ ".") = true →
        cmContains acc.disallowedMap k = true)
      (fun acc a hacc => by
        dsimp only at hacc ⊢
        rw [predicateAliasStep_preds_eq]; exact hacc)
      (fun acc a hacc k v hkv hpre =>
        predicateAliasStep_mono_disallowedMap config acc a k (hacc k v hkv hpre))
      (fun acc hacc => by
        intro k v hkv hpre
        unfold predicateAliasStep
        rw [if_pos (by simpa using List.elem_eq_true_of_mem hacc)]
        exact addPredicateKeys_adds p1 config _ k v hkv hpre)
      pAliases acc1 hP2.2 hp1mem
    exact this
  have hP4 : p1 ∉ acc2.allowedPredicateAliases := by
    rw [hacc2]
    have := foldl_preserve
      (P := fun acc : TCAcc =>
        p1 ∈ acc.disallowedPredicates ∧ p1 ∉ acc.allowedPredicateAliases)
      (fun acc a hacc => by
        dsimp only at hacc ⊢
        refine ⟨?_, ?_⟩
        · rw [predicateAliasStep_preds_eq]; exact hacc.1
        · exact predicateAliasStep_not_allowed_alias config acc a p1 hacc.1 hacc.2)
      pAliases acc1 ⟨hP2.2, by rw [hEmptyAllowedPred]; exact List.not_mem_nil p1⟩
    exact this.2
  -- push bucket facts through the final `transforms` / `predicates` inserts
  have hfinalDis : ∀ k, cmContains acc2.disallowedMap k = true →
      cmContains (classify_transform_configs_with_full_chain config allowedTypes).disallowed
        k = true := by
    intro k h
    unfold classify_transform_configs_with_full_chain
    rw [hAccOf]
    dsimp only
    split
    · split
      · exact cmContains_cmInsert_of_contains _ _ _ _
          (cmContains_cmInsert_of_contains _ _ _ _ h)
      · exact cmContains_cmInsert_of_contains _ _ _ _ h
    · split
      · exact cmContains_cmInsert_of_contains _ _ _ _ h
      · exact h
  have hfinalAll : ∀ k, cmContains acc2.allowedMap k = true →
      cmContains (classify_transform_configs_with_full_chain config allowedTypes).allowed
        k = true := by
    intro k h
    unfold classify_transform_configs_with_full_chain
    rw [hAccOf]
    dsimp only
    split
    · split
      · exact cmContains_cmInsert_of_contains _ _ _ _
          (cmContains_cmInsert_of_contains _ _ _ _ h)
      · exact cmContains_cmInsert_of_contains _ _ _ _ h
    · split
      · exact cmContains_cmInsert_of_contains _ _ _ _ h
      · exact h
  refine ⟨?_, ?_, ?_, ?_⟩
  · intro k v hkv hpre
    exact hfinalDis k (hP2' k v hkv hpre)
  · intro k v hkv hpre
    exact hfinalDis k (hP3 k v hkv hpre)
  · intro k v hkv hpre
    exact hfinalAll k (hP1' k v hkv hpre)
  · rw [hAccOf]
    exact hP4

/-- Witness for C8 at a concrete config: `t1` carries an allowed Cast
transform, `t2` a disallowed custom one referencing predicate `p1`. -/
theorem claim_C8_transform_predicate_coupling_witness :
    cmContains (classify_transform_configs_with_full_chain
      [("transforms", "t1, t2"),
       ("transforms.t1.type", "org.apache.kafka.connect.transforms.Cast"),
       ("transforms.t2.type", "custom.Smt"),
       ("transforms.t2.predicate", "p1"),
       ("predicates", "p1"),
       ("predicates.p1.type", "org.apache.kafka.connect.transforms.predicates.TopicNameMatches")]
      ["org.apache.kafka.connect.transforms.Cast"]).disallowed "transforms.t2.type" = true ∧
    cmContains (classify_transform_configs_with_full_chain
      [("transforms", "t1, t2"),
       ("transforms.t1.type", "org.apache.kafka.connect.transforms.Cast"),
       ("transforms.t2.type", "custom.Smt"),
       ("transforms.t2.predicate", "p1"),
       ("predicates", "p1"),
       ("predicates.p1.type", "org.apache.kafka.connect.transforms.predicates.TopicNameMatches")]
      ["org.apache.kafka.connect.transforms.Cast"]).disallowed "predicates.p1.type" = true ∧
    cmContains (classify_transform_configs_with_full_chain
      [("transforms", "t1, t2"),
       ("transforms.t1.type", "org.apache.kafka.connect.transforms.Cast"),
       ("transforms.t2.type", "custom.Smt"),
       ("transforms.t2.predicate", "p1"),
       ("predicates", "p1"),
       ("predicates.p1.type", "org.apache.kafka.connect.transforms.predicates.TopicNameMatches")]
      ["org.apache.kafka.connect.transforms.Cast"]).allowed "transforms.t1.type" = true ∧
    "p1" ∉ (tcAccOf
      [("transforms", "t1, t2"),
       ("transforms.t1.type", "org.apache.kafka.connect.transforms.Cast"),
       ("transforms.t2.type", "custom.Smt"),
       ("transforms.t2.predicate", "p1"),
       ("predicates", "p1"),
       ("predicates.p1.type", "org.apache.kafka.connect.transforms.predicates.TopicNameMatches")]
      ["org.apache.kafka.connect.transforms.Cast"]).allowedPredicateAliases := by
  obtain ⟨c1, c2, c3, c4⟩ :=
    claim_C8_transform_predicate_coupling
      [("transforms", "t1, t2"),
       ("transforms.t1.type", "org.apache.kafka.connect.transforms.Cast"),
       ("transforms.t2.type", "custom.Smt"),
       ("transforms.t2.predicate", "p1"),
       ("predicates", "p1"),
       ("predicates.p1.type", "org.apache.kafka.connect.transforms.predicates.TopicNameMatches")]
      ["org.apache.kafka.connect.transforms.Cast"]
      "t1" "t2" "p1" "org.apache.kafka.connect.transforms.Cast" "custom.Smt"
      (by
        have h : chainAliases (cmGetD
            [("transforms", "t1, t2"),
             ("transforms.t1.type", "org.apache.kafka.connect.transforms.Cast"),
             ("transforms.t2.type", "custom.Smt"),
             ("transforms.t2.predicate", "p1"),
             ("predicates", "p1"),
             ("predicates.p1.type",
               "org.apache.kafka.connect.transforms.predicates.TopicNameMatches")]
            "transforms" "") = ["t1", "t2"] := rfl
        rw [h]; simp)
      (by
        have h : chainAliases (cmGetD
            [("transforms", "t1, t2"),
             ("transforms.t1.type", "org.apache.kafka.connect.transforms.Cast"),
             ("transforms.t2.type", "custom.Smt"),
             ("transforms.t2.predicate", "p1"),
             ("predicates", "p1"),
             ("predicates.p1.type",
               "org.apache.kafka.connect.transforms.predicates.TopicNameMatches")]
            "transforms" "") = ["t1", "t2"] := rfl
        rw [h]; simp)
      rfl (by simp) rfl
      rfl (by simp) rfl
      (by simp)
      (by
        have h : chainAliases (cmGetD
            [("transforms", "t1, t2"),
             ("transforms.t1.type", "org.apache.kafka.connect.transforms.Cast"),
             ("transforms.t2.type", "custom.Smt"),
             ("transforms.t2.predicate", "p1"),
             ("predicates", "p1"),
             ("predicates.p1.type",
               "org.apache.kafka.connect.transforms.predicates.TopicNameMatches")]
            "predicates" "") = ["p1"] := rfl
        rw [h]; simp)
  exact ⟨c1 "transforms.t2.type" "custom.Smt" (by simp) rfl,
    c2 "predicates.p1.type"
      "org.apache.kafka.connect.transforms.predicates.TopicNameMatches" (by simp) rfl,
    c3 "transforms.t1.type" "org.apache.kafka.connect.transforms.Cast" (by simp) rfl,
    c4⟩

/-! ## Claims about `parse_jdbc_url` -/

/-- C4: JDBC URL parsing round-trip on the two reference inputs, for
both `DatabaseUtils.parse_jdbc_url` and
`ConnectorComparator._parse_jdbc_url`: the PostgreSQL URL yields
host/port/db.name and the Oracle descriptor yields
host/port/db.connection.type/db.name exactly as specified. -/
theorem claim_C4_jdbc_round_trip :
    DatabaseUtils.parse_jdbc_url "jdbc:postgresql://localhost:5432/mydb" =
      [("host", "localhost"), ("port", "5432"), ("db.name", "mydb")] ∧
    DatabaseUtils.parse_jdbc_url
      "jdbc:oracle:thin:@(DESCRIPTION=(ADDRESS=(PROTOCOL=TCPS)(HOST=myhost)(PORT=1521))(CONNECT_DATA=(SERVICE_NAME=orcl)))" =
      [("host", "myhost"), ("port", "1521"),
        ("db.connection.type", "SERVICE_NAME"), ("db.name", "orcl")] ∧
    Comparator.parse_jdbc_url "jdbc:postgresql://localhost:5432/mydb" =
      [("host", "localhost"), ("port", "5432"), ("db.name", "mydb")] ∧
    Comparator.parse_jdbc_url
      "jdbc:oracle:thin:@(DESCRIPTION=(ADDRESS=(PROTOCOL=TCPS)(HOST=myhost)(PORT=1521))(CONNECT_DATA=(SERVICE_NAME=orcl)))" =
      [("host", "myhost"), ("port", "1521"),
        ("db.connection.type", "SERVICE_NAME"), ("db.name", "orcl")] :=
  ⟨rfl, rfl, rfl, rfl⟩

/-- Modelled from the spec: the spec's case-insensitive Oracle-marker
test ("Two modes selected by presence of an Oracle `@(DESCRIPTION=`
marker (case-insensitive)"). -/
def containsMarkerCaseInsensitive (url : String) : Bool :=
  strContains (strToLower url) (strToLower "@(DESCRIPTION=")

/-- C5 counterexample: a URL containing the lowercase marker
`@(description=` satisfies the spec's case-insensitive test but the
code's case-sensitive `'@(DESCRIPTION=' in original_url` test fails, so
the URL is parsed in standard mode — both parsers return an empty map
instead of the Oracle-mode host/port/connect-data fields. -/
theorem claim_C5_case_sensitivity_counterexample :
    containsMarkerCaseInsensitive
      "jdbc:oracle:thin:@(description=(ADDRESS=(PROTOCOL=TCPS)(HOST=myhost)(PORT=1521))(CONNECT_DATA=(SERVICE_NAME=orcl)))" = true ∧
    isOracleFormat
      "jdbc:oracle:thin:@(description=(ADDRESS=(PROTOCOL=TCPS)(HOST=myhost)(PORT=1521))(CONNECT_DATA=(SERVICE_NAME=orcl)))" = false ∧
    DatabaseUtils.parse_jdbc_url
      "jdbc:oracle:thin:@(description=(ADDRESS=(PROTOCOL=TCPS)(HOST=myhost)(PORT=1521))(CONNECT_DATA=(SERVICE_NAME=orcl)))" = [] ∧
    Comparator.parse_jdbc_url
      "jdbc:oracle:thin:@(description=(ADDRESS=(PROTOCOL=TCPS)(HOST=myhost)(PORT=1521))(CONNECT_DATA=(SERVICE_NAME=orcl)))" = [] :=
  ⟨rfl, rfl, rfl, rfl⟩

/-- Standard-mode extraction only ever writes the five keys `host`,
`port`, `db.name`, `user`, `password`; in particular it never produces
`db.connection.type`. -/
theorem standardExtract_no_connect_data (url : String) :
    cmGet (standardExtract url) "db.connection.type" = none := by
  unfold standardExtract
  dsimp only
  split <;> split <;> split <;> split <;> split <;>
    simp +decide [cmGet, cmGet_cmInsert_ne]

/-- C5 amended: Oracle-descriptor mode is selected exactly when the URL
contains `@(DESCRIPTION=` case-SENSITIVELY; a URL whose marker appears
only in another case is parsed in standard mode, which never yields a
`db.connection.type` entry. -/
theorem claim_C5_case_sensitive_mode_selection
    (url : String) (h : strContains url "@(DESCRIPTION=" = false) :
    DatabaseUtils.parse_jdbc_url url = standardExtract (strToLower url) ∧
    Comparator.parse_jdbc_url url = standardExtract (strToLower url) ∧
    cmGet (DatabaseUtils.parse_jdbc_url url) "db.connection.type" = none ∧
    cmGet (Comparator.parse_jdbc_url url) "db.connection.type" = none := by
  have hfmt : isOracleFormat url = false := h
  refine ⟨?_, ?_, ?_, ?_⟩ <;>
    simp [DatabaseUtils.parse_jdbc_url, Comparator.parse_jdbc_url, hfmt,
      standardExtract_no_connect_data]

/-- Witness for the amended C5 at the lowercase-marker URL. -/
theorem claim_C5_case_sensitive_mode_selection_witness :
    cmGet (DatabaseUtils.parse_jdbc_url
      "jdbc:oracle:thin:@(description=(ADDRESS=(HOST=myhost)(PORT=1521)))")
      "db.connection.type" = none := by
  exact (claim_C5_case_sensitive_mode_selection
    "jdbc:oracle:thin:@(description=(ADDRESS=(HOST=myhost)(PORT=1521)))" rfl).2.2.1

/-! ## Further Python string primitives used by the comparator -/

/-- Python `s.replace(pat, repl)` (all non-overlapping occurrences, left
to right); fuel-structural so that it evaluates in the kernel. The fuel
is the string length, an upper bound on the scan steps for the
non-empty patterns the comparator uses. -/
def replaceAllAux : Nat → List Char → List Char → List Char → List Char
  | 0, l, _, _ => l
  | fuel + 1, l, pat, repl =>
    match l with
    | [] => []
    | c :: rest =>
      match dropLit? pat l with
      | some after => repl ++ replaceAllAux fuel after pat repl
      | none => c :: replaceAllAux fuel rest pat repl

def strReplaceAll (s pat repl : String) : String :=
  String.mk (replaceAllAux s.toList.length s.toList pat.toList repl.toList)

/-- Python `s.split(sep, 1)` when `sep in s` is known: the parts before
and after the first occurrence. -/
def splitOnceAux (sep : Char) : List Char → Option (List Char × List Char)
  | [] => none
  | c :: rest =>
    if c = sep then some ([], rest)
    else
      match splitOnceAux sep rest with
      | some (a, b) => some (c :: a, b)
      | none => none

def strSplitOnce (s : String) (sep : Char) : Option (String × String) :=
  (splitOnceAux sep s.toList).map (fun p => (String.mk p.1, String.mk p.2))

/-- Python `s.split(sep)[0]`. -/
def strHeadSplit (s : String) (sep : Char) : String :=
  String.mk (s.toList.takeWhile (fun c => c != sep))

/-- Python `s.split(sep)[1]` (second chunk; "" when absent). -/
def strSecondSplit (s : String) (sep : Char) : String :=
  ((strSplitOn s sep).drop 1).headD ""

/-- Python `s.split(sep)[-1]` (last chunk). -/
def strLastSplit (s : String) (sep : Char) : String :=
  (strSplitOn s sep).getLastD ""

/-- Python truthiness of an optional string (`None` and `""` falsy). -/
def truthyOpt : Option String → Option String
  | some s => if s = "" then none else some s
  | none => none

/-- `set.add` on the semantic-match list (membership-only usage; the
CPython set iteration order is unspecified, modelled here as insertion
order). -/
def smAdd (l : List String) (x : String) : List String :=
  if l.contains x then l else l ++ [x]

/-- `set.remove` (the element is removed; at most one copy is ever
present because insertion goes through `smAdd`). -/
def listRemove : List String → String → List String
  | [], _ => []
  | x :: rest, y => if x = y then rest else x :: listRemove rest y

/-- First-occurrence deduplication (used where Python iterates a set
whose iteration order is unspecified). -/
def dedupFirstAux : List String → List String → List String
  | [], _ => []
  | x :: rest, seen =>
    if seen.contains x then dedupFirstAux rest seen
    else x :: dedupFirstAux rest (x :: seen)

def dedupFirst (l : List String) : List String :=
  dedupFirstAux l []

/-! ## Placeholder machinery (`DEFAULT_PATTERN`, the regex `\$\{([^}]+)\}`) -/

/-- One match of `\$\{([^}]+)\}` at the head of the list, returning the
captured name and the tail after the match. -/
def matchPlaceholderAt : List Char → Option (String × List Char)
  | '$' :: '{' :: rest =>
    let nm := rest.takeWhile (fun c => c != '}')
    let rest' := rest.dropWhile (fun c => c != '}')
    if nm.isEmpty then none
    else
      match rest' with
      | '}' :: tail => some (String.mk nm, tail)
      | _ => none
  | _ => none

/-- `DEFAULT_PATTERN.search(value)` viewed as a boolean. -/
def containsPlaceholder (s : String) : Bool :=
  (searchWith matchPlaceholderAt s.toList).isSome

/-- `DEFAULT_PATTERN.finditer(value)`: all non-overlapping matches,
left to right (fuel-structural). -/
def collectPlaceholdersAux : Nat → List Char → List String
  | 0, _ => []
  | fuel + 1, l =>
    match searchWith matchPlaceholderAt l with
    | none => []
    | some (nm, tail) => nm :: collectPlaceholdersAux fuel tail

def collectPlaceholders (s : String) : List String :=
  collectPlaceholdersAux s.toList.length s.toList

/-- `_find_referenced_keys` (src/connector_comparator.py, lines
2250-2261): the placeholder names occurring in `value` that name a
template config def; Python collects them in a set, modelled as a
first-occurrence-ordered deduplicated list. -/
def find_referenced_keys (value : String) (highLevelKeys : List String) : List String :=
  dedupFirst ((collectPlaceholders value).filter (fun n => highLevelKeys.contains n))

/-- `_is_placeholder` (line 3355). -/
def is_placeholder (v : String) : Bool :=
  strStartsWith v "$\x7b"

/-- `_extract_placeholder_name` (lines 3359-3368): the text between
`${` and the first `}` (or everything after `${` when unclosed). -/
def extract_placeholder_name (p : String) : String :=
  if strStartsWith p "$\x7b" then String.mk ((p.toList.drop 2).takeWhile (fun c => c != '}'))
  else p

/-- `_resolve_template_default` (lines 3370-3379). -/
def resolve_template_default (templateDefault : String) (fm : ConfigMap) : String :=
  if is_placeholder templateDefault then
    match cmGet fm (extract_placeholder_name templateDefault) with
    | some v => v
    | none => templateDefault
  else templateDefault

/-- `_get_template_default_value` (lines 3381-3388): the first def of
that name carrying a non-null `default_value`, stringified. -/
def get_template_default_value : List TemplateConfigDef → String → Option String
  | [], _ => none
  | d :: rest, n =>
    if d.name = n then
      match d.default_value with
      | some dv => some (pyStr dv)
      | none => get_template_default_value rest n
    else get_template_default_value rest n

/-! ## `_parse_mongodb_connection_string`
(src/connector_comparator.py, lines 853-942; identical in
src/database_utils.py, lines 112-186) -/

/-- The shared credentials/host/database extraction given the part
after the scheme prefix, when an `@` is present. -/
def mongoWithCreds (part : String) : ConfigMap :=
  match strSplitOnce part '@' with
  | none => []
  | some (credentials, hostPart) =>
    let m0 : ConfigMap := []
    let m1 :=
      match strSplitOnce credentials ':' with
      | some (user, password) => cmInsert (cmInsert m0 "user" user) "password" password
      | none => m0
    let host := strHeadSplit (strHeadSplit hostPart '/') '?'
    let m2 := cmInsert m1 "host" host
    if strContains hostPart "/" then
      match strSplitOnce hostPart '/' with
      | some (_, dbPart) =>
        let dbName := if strContains dbPart "?" then strHeadSplit dbPart '?' else dbPart
        cmInsert m2 "database" dbName
      | none => m2
    else m2

/-- The host/database extraction when no `@` is present. -/
def mongoNoCreds (part : String) : ConfigMap :=
  let host := strHeadSplit (strHeadSplit part '/') '?'
  let m1 := cmInsert ([] : ConfigMap) "host" host
  if strContains part "/" then
    match strSplitOnce part '/' with
    | some (_, dbPart) =>
      let dbName := if strContains dbPart "?" then strHeadSplit dbPart '?' else dbPart
      cmInsert m1 "database" dbName
    | none => m1
  else m1

def parse_mongodb_connection_string (urlArg : String) : ConfigMap :=
  let url := strToLower urlArg
  if strContains url "mongodb+srv://" then
    let srvPart := strReplaceAll url "mongodb+srv://" ""
    if strContains srvPart "@" then mongoWithCreds srvPart else []
  else if strContains url "mongodb://" then
    let mongoPart := strReplaceAll url "mongodb://" ""
    if strContains mongoPart "@" then mongoWithCreds mongoPart else mongoNoCreds mongoPart
  else []

/-! ## Template and SM-template data model -/

/-- One `connector_configs` rule entry: `value`, `switch` and
`dynamic.mapper` are mutually exclusive strategies; the `dynamic.mapper`
JSON object itself carries an optional `name`.  JSON `null` values
inside a `switch` mapping are not modelled (the comparator only guards
against them defensively). -/
structure ConnectorConfigDef where
  name : String
  value : Option PyVal := none
  switch : Option (List (String × List (String × String))) := none
  dynamicMapper : Option (Option String) := none
  deriving DecidableEq, Repr

structure TemplateEntry where
  template_id : Option String := none
  config_defs : List TemplateConfigDef := []
  connector_configs : List ConnectorConfigDef := []
  deriving DecidableEq, Repr

structure FmTemplate where
  template_id : Option String := none
  templates : List TemplateEntry := []
  deriving DecidableEq, Repr

/-- `_extract_connector_config_defs` (lines 1875-1902). -/
def extract_connector_config_defs (fm : FmTemplate) : List ConnectorConfigDef :=
  fm.templates.foldl (fun acc t => acc ++ t.connector_configs) []

/-- `_extract_template_config_defs` (lines 1904-1931). -/
def extract_template_config_defs (fm : FmTemplate) : List TemplateConfigDef :=
  fm.templates.foldl (fun acc t => acc ++ t.config_defs) []

/-- `_find_template_config_def_by_name` (lines 2243-2247). -/
def find_template_config_def_by_name (n : String)
    (defs : List TemplateConfigDef) : Option TemplateConfigDef :=
  defs.find? (fun d => d.name = n)

/-- A named group/section of an SM template. -/
structure SmGroup where
  name : String := ""
  configs : List SmProp := []
  deriving DecidableEq, Repr

/-- The SM-template shapes `_get_sm_property_from_template` searches:
top-level `configs`, `groups` (each with `configs`) and `sections`
(each with `config_defs`); an absent key behaves like an empty list. -/
structure SmTemplate where
  configs : List SmProp := []
  groups : List SmGroup := []
  sections : List SmGroup := []
  deriving DecidableEq, Repr

def findInGroups (gs : List SmGroup) (n : String) : Option SmProp :=
  match gs with
  | [] => none
  | g :: rest =>
    match g.configs.find? (fun c => c.name = n) with
    | some c => some c
    | none => findInGroups rest n

/-- `_get_sm_property_from_template` (lines 3259-3322). -/
def get_sm_property_from_template (config_name : String)
    (sm : Option SmTemplate) : Option SmProp :=
  match sm with
  | none => none
  | some t =>
    match t.configs.find? (fun c => c.name = config_name) with
    | some c => some c
    | none =>
      match findInGroups t.groups config_name with
      | some c => some c
      | none => findInGroups t.sections config_name

/-! ## The derivation registry (4.4)

Each entry of `_get_config_derivation_method` (lines 1933-1986) is
embedded below.  `_derive_connection_url` is special: its Python
signature takes only three arguments after `self`, while step 3 of
`transformSMToFm` calls every derivation method with four, so invoking
it raises a `TypeError` that the surrounding `try` converts into an
error message, aborting the rest of the template-defs pass. -/

/-- The exception text of that `TypeError` (environment-formatted by
CPython; its exact wording is irrelevant to every property proved
here). -/
def connectionUrlTypeErrorText : String :=
  "_derive_connection_url() takes from 3 to 4 positional arguments but 5 were given"

def reverse_format_mapping : ConfigMap :=
  [("io.confluent.connect.avro.AvroConverter", "AVRO"),
   ("io.confluent.connect.json.JsonSchemaConverter", "JSON_SR"),
   ("io.confluent.connect.protobuf.ProtobufConverter", "PROTOBUF"),
   ("org.apache.kafka.connect.converters.ByteArrayConverter", "BYTES"),
   ("org.apache.kafka.connect.json.JsonConverter", "JSON"),
   ("org.apache.kafka.connect.storage.StringConverter", "STRING")]

/-- The MongoDB-style fallbacks shared by the connection derivations:
`['mongodb.connection.string', 'connection.string']` with a final
`None`. -/
def mongoFallback (u : ConfigMap) (field : String) : Option String :=
  match cmGet u "mongodb.connection.string" with
  | some uri => cmGet (parse_mongodb_connection_string uri) field
  | none =>
    match cmGet u "connection.string" with
    | some uri => cmGet (parse_mongodb_connection_string uri) field
    | none => none

/-- `_derive_connection_host` (lines 2263-2285). -/
def derive_connection_host (u _fm : ConfigMap) (_defs : List TemplateConfigDef)
    (_cn : String) : Option String :=
  match cmGet u "connection.url" with
  | some jdbcUrl =>
    if strStartsWith jdbcUrl "jdbc:" then cmGet (Comparator.parse_jdbc_url jdbcUrl) "host"
    else
      match cmGet u "connection.uri" with
      | some uri => cmGet (parse_mongodb_connection_string uri) "host"
      | none => mongoFallback u "host"
  | none =>
    match cmGet u "connection.uri" with
    | some uri => cmGet (parse_mongodb_connection_string uri) "host"
    | none => mongoFallback u "host"

/-- `_derive_connection_port` (lines 2287-2295). -/
def derive_connection_port (u _fm : ConfigMap) (_defs : List TemplateConfigDef)
    (_cn : String) : Option String :=
  match cmGet u "connection.url" with
  | some jdbcUrl =>
    if strStartsWith jdbcUrl "jdbc:" then cmGet (Comparator.parse_jdbc_url jdbcUrl) "port"
    else none
  | none => none

/-- `_derive_connection_user` (lines 2296-2318). -/
def derive_connection_user (u _fm : ConfigMap) (_defs : List TemplateConfigDef)
    (_cn : String) : Option String :=
  match cmGet u "connection.url" with
  | some jdbcUrl =>
    if strStartsWith jdbcUrl "jdbc:" then cmGet (Comparator.parse_jdbc_url jdbcUrl) "user"
    else
      match cmGet u "connection.uri" with
      | some uri => cmGet (parse_mongodb_connection_string uri) "user"
      | none => mongoFallback u "user"
  | none =>
    match cmGet u "connection.uri" with
    | some uri => cmGet (parse_mongodb_connection_string uri) "user"
    | none => mongoFallback u "user"

/-- `_derive_connection_password` (lines 2320-2342). -/
def derive_connection_password (u _fm : ConfigMap) (_defs : List TemplateConfigDef)
    (_cn : String) : Option String :=
  match cmGet u "connection.url" with
  | some jdbcUrl =>
    if strStartsWith jdbcUrl "jdbc:" then cmGet (Comparator.parse_jdbc_url jdbcUrl) "password"
    else
      match cmGet u "connection.uri" with
      | some uri => cmGet (parse_mongodb_connection_string uri) "password"
      | none => mongoFallback u "password"
  | none =>
    match cmGet u "connection.uri" with
    | some uri => cmGet (parse_mongodb_connection_string uri) "password"
    | none => mongoFallback u "password"

/-- `_derive_connection_database` (lines 2344-2353). -/
def derive_connection_database (u _fm : ConfigMap) (_defs : List TemplateConfigDef)
    (_cn : String) : Option String :=
  match cmGet u "connection.url" with
  | some jdbcUrl =>
    if strStartsWith jdbcUrl "jdbc:" then cmGet (Comparator.parse_jdbc_url jdbcUrl) "db.name"
    else none
  | none => none

/-- `_derive_db_name` (lines 2355-2387). -/
def derive_db_name (u _fm : ConfigMap) (_defs : List TemplateConfigDef)
    (_cn : String) : Option String :=
  match cmGet u "connection.url" with
  | some jdbcUrl =>
    if strStartsWith jdbcUrl "jdbc:" then cmGet (Comparator.parse_jdbc_url jdbcUrl) "db.name"
    else derive_db_name_rest u
  | none => derive_db_name_rest u
where
  derive_db_name_rest (u : ConfigMap) : Option String :=
    match cmGet u "connection.uri" with
    | some uri => cmGet (parse_mongodb_connection_string uri) "database"
    | none =>
      match cmGet u "mongodb.connection.string" with
      | some uri => cmGet (parse_mongodb_connection_string uri) "database"
      | none =>
        match cmGet u "connection.string" with
        | some uri => cmGet (parse_mongodb_connection_string uri) "database"
        | none =>
          match cmGet u "db.name" with
          | some v => some v
          | none => cmGet u "database"

/-- `_derive_db_connection_type` (lines 2389-2403). -/
def derive_db_connection_type (u _fm : ConfigMap) (_defs : List TemplateConfigDef)
    (_cn : String) : Option String :=
  match cmGet u "connection.url" with
  | some jdbcUrl =>
    if strStartsWith jdbcUrl "jdbc:" then
      cmGet (Comparator.parse_jdbc_url jdbcUrl) "db.connection.type"
    else cmGet u "db.connection.type"
  | none => cmGet u "db.connection.type"

/-- `_derive_ssl_server_cert_dn` (lines 2405-2419). -/
def derive_ssl_server_cert_dn (u _fm : ConfigMap) (_defs : List TemplateConfigDef)
    (_cn : String) : Option String :=
  match cmGet u "connection.url" with
  | some jdbcUrl =>
    if strStartsWith jdbcUrl "jdbc:" then
      cmGet (Comparator.parse_jdbc_url jdbcUrl) "ssl.server.cert.dn"
    else cmGet u "ssl.server.cert.dn"
  | none => cmGet u "ssl.server.cert.dn"

/-- The common body of the six format derivations: converter reverse
map, then direct format keys, then an optional schemas-enable /
fm-sibling fallback, then the template default, then `"JSON"`. -/
def formatFromTemplateDefault (fm : ConfigMap) (defs : List TemplateConfigDef)
    (key : String) : Option String :=
  if defs ≠ [] then
    match truthyOpt (get_template_default_value defs key) with
    | some td => some (strToUpper (resolve_template_default td fm))
    | none => none
  else none

/-- `_derive_input_key_format` (lines 2439-2475). -/
def derive_input_key_format (u fm : ConfigMap) (defs : List TemplateConfigDef)
    (_cn : String) : Option String :=
  match cmGet u "key.converter" with
  | some cls =>
    match cmGet reverse_format_mapping cls with
    | some fmtv => some fmtv
    | none => some cls
  | none =>
    match truthyOpt (cmGet u "key.format") with
    | some fk => some (strToUpper fk)
    | none =>
      match truthyOpt (cmGet u "input.key.format") with
      | some fk => some (strToUpper fk)
      | none =>
        if cmContains u "key.converter.schemas.enable" then some "JSON_SR"
        else
          match formatFromTemplateDefault fm defs "input.key.format" with
          | some v => some v
          | none => some "JSON"

/-- `_derive_input_data_format` (lines 2477-2514). -/
def derive_input_data_format (u fm : ConfigMap) (defs : List TemplateConfigDef)
    (_cn : String) : Option String :=
  match cmGet u "value.converter" with
  | some cls =>
    match cmGet reverse_format_mapping cls with
    | some fmtv => some fmtv
    | none => some cls
  | none =>
    match truthyOpt (cmGet u "value.format") with
    | some fk => some (strToUpper fk)
    | none =>
      match truthyOpt (cmGet u "input.data.format") with
      | some fk => some (strToUpper fk)
      | none =>
        if cmContains u "value.converter.schemas.enable" then some "JSON_SR"
        else
          match formatFromTemplateDefault fm defs "input.data.format" with
          | some v => some v
          | none => some "JSON"

/-- `_derive_output_key_format` (lines 2516-2549). -/
def derive_output_key_format (u fm : ConfigMap) (defs : List TemplateConfigDef)
    (_cn : String) : Option String :=
  match cmGet u "key.converter" with
  | some cls =>
    match cmGet reverse_format_mapping cls with
    | some fmtv => some fmtv
    | none => some cls
  | none =>
    match truthyOpt (cmGet u "output.key.format") with
    | some fk => some (strToUpper fk)
    | none =>
      match truthyOpt (cmGet u "key.format") with
      | some fk => some (strToUpper fk)
      | none =>
        match formatFromTemplateDefault fm defs "output.key.format" with
        | some v => some v
        | none => some "JSON"

/-- `_derive_output_data_format` (lines 2551-2584); note the direct
format key is returned WITHOUT upper-casing in the source. -/
def derive_output_data_format (u fm : ConfigMap) (defs : List TemplateConfigDef)
    (_cn : String) : Option String :=
  match cmGet u "value.converter" with
  | some cls =>
    match cmGet reverse_format_mapping cls with
    | some fmtv => some fmtv
    | none => some cls
  | none =>
    match truthyOpt (cmGet u "output.data.format") with
    | some fk => some fk
    | none =>
      match truthyOpt (cmGet u "value.format") with
      | some fk => some fk
      | none =>
        match formatFromTemplateDefault fm defs "output.data.format" with
        | some v => some v
        | none => some "JSON"

/-- `_derive_output_data_key_format` (lines 2586-2623). -/
def derive_output_data_key_format (u fm : ConfigMap) (defs : List TemplateConfigDef)
    (_cn : String) : Option String :=
  match cmGet u "key.converter" with
  | some cls =>
    match cmGet reverse_format_mapping cls with
    | some fmtv => some fmtv
    | none => some cls
  | none =>
    match truthyOpt (cmGet u "output.data.key.format") with
    | some fk => some (strToUpper fk)
    | none =>
      match truthyOpt (cmGet u "key.format") with
      | some fk => some (strToUpper fk)
      | none =>
        match cmGet fm "output.key.format" with
        | some v => some v
        | none =>
          match formatFromTemplateDefault fm defs "output.data.key.format" with
          | some v => some v
          | none => some "JSON"

/-- `_derive_output_data_value_format` (lines 2625-2661). -/
def derive_output_data_value_format (u fm : ConfigMap) (defs : List TemplateConfigDef)
    (_cn : String) : Option String :=
  match cmGet u "value.converter" with
  | some cls =>
    match cmGet reverse_format_mapping cls with
    | some fmtv => some fmtv
    | none => some cls
  | none =>
    match truthyOpt (cmGet u "output.data.value.format") with
    | some fk => some (strToUpper fk)
    | none =>
      match truthyOpt (cmGet u "value.format") with
      | some fk => some (strToUpper fk)
      | none =>
        match cmGet fm "output.data.format" with
        | some v => some v
        | none =>
          match formatFromTemplateDefault fm defs "output.data.value.format" with
          | some v => some v
          | none => some "JSON"

/-- The plain (non-upper-cased) template-default fallback used by the
ssl/redis/servicebus derivations. -/
def plainTemplateDefault (fm : ConfigMap) (defs : List TemplateConfigDef)
    (key : String) : Option String :=
  if defs ≠ [] then
    match truthyOpt (get_template_default_value defs key) with
    | some td => some (resolve_template_default td fm)
    | none => none
  else none

/-- The value mapping of the database-specific SSL-mode key loop. -/
def sslModeMapValue (v : String) : Option String :=
  if ["true", "yes", "1", "enabled"].contains v then some "require"
  else if ["false", "no", "0", "disabled"].contains v then some "disabled"
  else if ["prefer", "preferred"].contains v then some "prefer"
  else if ["require", "required"].contains v then some "require"
  else if ["verify-ca", "verifyca", "verify_ca"].contains v then some "verify-ca"
  else if ["verify-full", "verifyfull", "verify_full"].contains v then some "verify-full"
  else none

def sslModeFromKeys : List String → ConfigMap → Option String
  | [], _ => none
  | k :: rest, u =>
    match cmGet u k with
    | some v =>
      match sslModeMapValue (strToLower v) with
      | some r => some r
      | none => sslModeFromKeys rest u
    | none => sslModeFromKeys rest u

def sslFromIndicators : List String → ConfigMap → Option String
  | [], _ => none
  | ind :: rest, u =>
    match cmGet u ind with
    | some v =>
      if v ≠ "" then
        let cv := strToLower v
        if strContains cv "verify" || strContains cv "cert" then some "verify-ca"
        else some "require"
      else sslFromIndicators rest u
    | none => sslFromIndicators rest u

def sslFromUrl (u : ConfigMap) : Option String :=
  match cmGet u "connection.url" with
  | some url0 =>
    let url := strToLower url0
    if strContains url "ssl=true" || strContains url "sslmode=" ||
        strContains url "useSSL=true" then
      if strContains url "sslmode=prefer" then some "prefer"
      else if strContains url "sslmode=require" then some "require"
      else if strContains url "sslmode=verify-ca" then some "verify-ca"
      else if strContains url "sslmode=verify-full" then some "verify-full"
      else if strContains url "sslmode=disable" || strContains url "sslmode=disabled" then
        some "disabled"
      else some "require"
    else none
  | none => none

/-- `_derive_ssl_mode` (lines 2724-2812). -/
def derive_ssl_mode (u fm : ConfigMap) (defs : List TemplateConfigDef)
    (_cn : String) : Option String :=
  match cmGet u "ssl.mode" with
  | some v0 =>
    let v := strToLower v0
    if ["prefer", "preferred"].contains v then some "prefer"
    else if ["require", "required"].contains v then some "require"
    else if ["verify-ca", "verifyca", "verify_ca"].contains v then some "verify-ca"
    else if ["verify-full", "verifyfull", "verify_full"].contains v then some "verify-full"
    else if ["disabled", "disable", "false", "none"].contains v then some "disabled"
    else derive_ssl_mode_rest u fm defs
  | none => derive_ssl_mode_rest u fm defs
where
  derive_ssl_mode_rest (u fm : ConfigMap) (defs : List TemplateConfigDef) : Option String :=
    match sslModeFromKeys
        ["connection.sslmode", "connection.sslMode", "database.ssl.mode", "redis.ssl.mode",
         "ssl.enabled", "use.ssl", "ssl.use"] u with
    | some r => some r
    | none =>
      match sslFromIndicators
          ["ssl.truststorefile", "ssl.truststorepassword", "ssl.rootcertfile",
           "connection.javax.net.ssl.trustStore", "connection.javax.net.ssl.trustStorePassword",
           "ssl.truststore.file", "ssl.truststore.password", "ssl.cert.file",
           "ssl.key.file", "ssl.ca.file", "ssl.certificate.file"] u with
      | some r => some r
      | none =>
        match sslFromUrl u with
        | some r => some r
        | none =>
          match plainTemplateDefault fm defs "ssl.mode" with
          | some r => some r
          | none => some "prefer"

def redisHostFromKeys : List String → ConfigMap → Option String
  | [], _ => none
  | k :: rest, u =>
    match cmGet u k with
    | some v => if strContains v ":" then some (strHeadSplit v ':') else some v
    | none => redisHostFromKeys rest u

def redisHostFromUrls : List String → ConfigMap → Option String
  | [], _ => none
  | k :: rest, u =>
    match cmGet u k with
    | some url0 =>
      let url := strToLower url0
      if strContains url "redis://" then
        let rpart := strReplaceAll url "redis://" ""
        if strContains rpart "@" then
          match strSplitOnce rpart '@' with
          | some p => some (strHeadSplit (strHeadSplit p.2 '/') ':')
          | none => redisHostFromUrls rest u
        else some (strHeadSplit (strHeadSplit rpart '/') ':')
      else redisHostFromUrls rest u
    | none => redisHostFromUrls rest u

/-- `_derive_redis_hostname` (lines 2814-2858). -/
def derive_redis_hostname (u _fm : ConfigMap) (_defs : List TemplateConfigDef)
    (_cn : String) : Option String :=
  match cmGet u "redis.hostname" with
  | some v => some v
  | none =>
    match redisHostFromKeys
        ["redis.host", "redis.server", "redis.address", "redis.endpoint",
         "host", "server", "address", "endpoint"] u with
    | some r => some r
    | none =>
      match cmGet u "redis.hosts" with
      | some hv =>
        if strContains hv ":" then some (strHeadSplit hv ':')
        else redisHostFromUrls ["connection.url", "connection.uri", "redis.connection.url"] u
      | none => redisHostFromUrls ["connection.url", "connection.uri", "redis.connection.url"] u

def redisPortFromKeys : List String → ConfigMap → Option String
  | [], _ => none
  | k :: rest, u =>
    match cmGet u k with
    | some v => some v
    | none => redisPortFromKeys rest u

def redisPortFromUrls : List String → ConfigMap → Option String
  | [], _ => none
  | k :: rest, u =>
    match cmGet u k with
    | some url0 =>
      let url := strToLower url0
      if strContains url "redis://" then
        let rpart := strReplaceAll url "redis://" ""
        if strContains rpart "@" then
          match strSplitOnce rpart '@' with
          | some p =>
            let hostPort := strHeadSplit p.2 '/'
            if strContains hostPort ":" then some (strSecondSplit hostPort ':')
            else redisPortFromUrls rest u
          | none => redisPortFromUrls rest u
        else
          let hostPort := strHeadSplit rpart '/'
          if strContains hostPort ":" then some (strSecondSplit hostPort ':')
          else redisPortFromUrls rest u
      else redisPortFromUrls rest u
    | none => redisPortFromUrls rest u

/-- `_derive_redis_portnumber` (lines 2860-2910). -/
def derive_redis_portnumber (u fm : ConfigMap) (defs : List TemplateConfigDef)
    (_cn : String) : Option String :=
  match cmGet u "redis.portnumber" with
  | some v => some v
  | none =>
    match redisPortFromKeys ["redis.port", "redis.server.port", "port", "server.port"] u with
    | some r => some r
    | none =>
      match cmGet u "redis.hosts" with
      | some hv =>
        if strContains hv ":" then
          let port := strSecondSplit hv ':'
          if strContains port "/" then some (strHeadSplit port '/') else some port
        else derive_redis_portnumber_rest u fm defs
      | none => derive_redis_portnumber_rest u fm defs
where
  derive_redis_portnumber_rest (u fm : ConfigMap) (defs : List TemplateConfigDef) :
      Option String :=
    match redisPortFromUrls ["connection.url", "connection.uri", "redis.connection.url"] u with
    | some r => some r
    | none =>
      match plainTemplateDefault fm defs "redis.portnumber" with
      | some r => some r
      | none => some "6379"

def redisSslFromFlags : List String → ConfigMap → Option String
  | [], _ => none
  | k :: rest, u =>
    match cmGet u k with
    | some v0 =>
      let v := strToLower v0
      if ["true", "yes", "1", "enabled", "on"].contains v then some "enabled"
      else if ["false", "no", "0", "disabled", "off"].contains v then some "disabled"
      else redisSslFromFlags rest u
    | none => redisSslFromFlags rest u

def redisSslFromIndicators : List String → ConfigMap → Option String
  | [], _ => none
  | ind :: rest, u =>
    match cmGet u ind with
    | some v =>
      if v ≠ "" then
        let cv := strToLower v
        if strContains cv "client" || strContains ind "keystore" then some "server+client"
        else some "server"
      else redisSslFromIndicators rest u
    | none => redisSslFromIndicators rest u

def redisSslFromUrls : List String → ConfigMap → Option String
  | [], _ => none
  | k :: rest, u =>
    match cmGet u k with
    | some url0 =>
      let url := strToLower url0
      if strContains url "rediss://" then some "enabled"
      else if strContains url "redis://" && strContains url "ssl=true" then some "enabled"
      else if strContains url "redis://" && strContains url "ssl=false" then some "disabled"
      else redisSslFromUrls rest u
    | none => redisSslFromUrls rest u

/-- `_derive_redis_ssl_mode` (lines 2912-2975). -/
def derive_redis_ssl_mode (u fm : ConfigMap) (defs : List TemplateConfigDef)
    (_cn : String) : Option String :=
  match cmGet u "redis.ssl.mode" with
  | some v0 =>
    let v := strToLower v0
    if ["disabled", "disable", "false", "none", "off"].contains v then some "disabled"
    else if ["enabled", "enable", "true", "on"].contains v then some "enabled"
    else if ["server", "server-only", "verify-server"].contains v then some "server"
    else if ["server+client", "server+client", "mutual", "two-way"].contains v then
      some "server+client"
    else some v0
  | none =>
    match redisSslFromFlags ["redis.ssl.enabled", "redis.ssl", "ssl.enabled", "use.ssl"] u with
    | some r => some r
    | none =>
      match redisSslFromIndicators
          ["redis.ssl.keystore.file", "redis.ssl.keystore.password",
           "redis.ssl.truststore.file", "redis.ssl.truststore.password",
           "redis.ssl.cert.file", "redis.ssl.key.file", "redis.ssl.ca.file"] u with
      | some r => some r
      | none =>
        match redisSslFromUrls ["connection.url", "connection.uri", "redis.connection.url"] u with
        | some r => some r
        | none =>
          match plainTemplateDefault fm defs "redis.ssl.mode" with
          | some r => some r
          | none => some "disabled"

/-- `Endpoint=sb://([^.]+)\.servicebus\.windows\.net/` at the head. -/
def matchSbNamespaceAt (s : List Char) : Option String :=
  match dropLit? "Endpoint=sb://".toList s with
  | none => none
  | some r0 =>
    let run := r0.takeWhile (fun c => c != '.')
    let r1 := r0.dropWhile (fun c => c != '.')
    if run.isEmpty then none
    else
      match dropLit? ".servicebus.windows.net/".toList r1 with
      | some _ => some (String.mk run)
      | none => none

/-- `lit([^;]+)` at the head (the three `SharedAccessKey*`/`EntityPath`
patterns). -/
def matchLitCaptureAt (lit : List Char) (s : List Char) : Option String :=
  match dropLit? lit s with
  | none => none
  | some r =>
    let run := r.takeWhile (fun c => c != ';')
    if run.isEmpty then none else some (String.mk run)

/-- `_derive_servicebus_namespace` (lines 2977-2987). -/
def derive_servicebus_namespace (u _fm : ConfigMap) (_defs : List TemplateConfigDef)
    (_cn : String) : Option String :=
  match cmGet u "azure.servicebus.namespace" with
  | some v => some v
  | none =>
    match truthyOpt (cmGet u "azure.servicebus.connection.string") with
    | some cs =>
      match searchWith matchSbNamespaceAt cs.toList with
      | some ns => some ns
      | none => cmGet u "azure.servicebus.namespace"
    | none => cmGet u "azure.servicebus.namespace"

/-- `_derive_azure_servicebus_sas_keyname` (lines 2989-2999). -/
def derive_azure_servicebus_sas_keyname (u _fm : ConfigMap)
    (_defs : List TemplateConfigDef) (_cn : String) : Option String :=
  match cmGet u "azure.servicebus.sas.keyname" with
  | some v => some v
  | none =>
    match truthyOpt (cmGet u "azure.servicebus.connection.string") with
    | some cs =>
      match searchWith (matchLitCaptureAt "SharedAccessKeyName=".toList) cs.toList with
      | some r => some r
      | none => cmGet u "azure.servicebus.sas.keyname"
    | none => cmGet u "azure.servicebus.sas.keyname"

/-- `_derive_azure_servicebus_sas_key` (lines 3001-3011). -/
def derive_azure_servicebus_sas_key (u _fm : ConfigMap)
    (_defs : List TemplateConfigDef) (_cn : String) : Option String :=
  match cmGet u "azure.servicebus.sas.key" with
  | some v => some v
  | none =>
    match truthyOpt (cmGet u "azure.servicebus.connection.string") with
    | some cs =>
      match searchWith (matchLitCaptureAt "SharedAccessKey=".toList) cs.toList with
      | some r => some r
      | none => cmGet u "azure.servicebus.sas.key"
    | none => cmGet u "azure.servicebus.sas.key"

/-- `_derive_azure_servicebus_entity_name` (lines 3013-3023). -/
def derive_azure_servicebus_entity_name (u _fm : ConfigMap)
    (_defs : List TemplateConfigDef) (_cn : String) : Option String :=
  match cmGet u "azure.servicebus.entity.name" with
  | some v => some v
  | none =>
    match truthyOpt (cmGet u "azure.servicebus.connection.string") with
    | some cs =>
      match searchWith (matchLitCaptureAt "EntityPath=".toList) cs.toList with
      | some r => some r
      | none => cmGet u "azure.servicebus.entity.name"
    | none => cmGet u "azure.servicebus.entity.name"

/-- The recommended-values scan shared by the two subject-name-strategy
derivations (first matching def with a non-empty list wins). -/
def findRecommendedStrategies : List TemplateConfigDef → String → List String
  | [], _ => []
  | d :: rest, n =>
    if d.name = n then
      if d.recommended_values ≠ [] then d.recommended_values
      else findRecommendedStrategies rest n
    else findRecommendedStrategies rest n

/-- The common body of the two strategy derivations given the fallback
recommended set. -/
def deriveStrategyWith (fallback : List String) (u : ConfigMap)
    (defs : List TemplateConfigDef) (cn : String) : Option String :=
  let recommended0 := if defs ≠ [] && cn ≠ "" then findRecommendedStrategies defs cn else []
  let recommended := if recommended0 = [] then fallback else recommended0
  if cn ≠ "" then
    match cmGet u cn with
    | some cv0 =>
      let cv := if strContains cv0 "." then strLastSplit cv0 '.' else cv0
      recommended.find? (fun st => strToLower st = strToLower cv)
    | none => none
  else none

/-- `_derive_subject_name_strategy` (lines 3025-3057). -/
def derive_subject_name_strategy (u _fm : ConfigMap) (defs : List TemplateConfigDef)
    (cn : String) : Option String :=
  deriveStrategyWith ["TopicNameStrategy", "RecordNameStrategy", "TopicRecordNameStrategy"]
    u defs cn

/-- `_derive_reference_subject_name_strategy` (lines 3059-3090). -/
def derive_reference_subject_name_strategy (u _fm : ConfigMap)
    (defs : List TemplateConfigDef) (cn : String) : Option String :=
  deriveStrategyWith
    ["DefaultReferenceSubjectNameStrategy", "QualifiedReferenceSubjectNameStrategy"] u defs cn

/-- A registry entry: either an ordinary derivation function, or the
arity-mismatched `_derive_connection_url` whose invocation raises. -/
inductive DerivationMethod where
  | fn (f : ConfigMap → ConfigMap → List TemplateConfigDef → String → Option String)
  | arityError

/-- The `config_derivation_methods` table (lines 1938-1984). -/
def config_derivation_methods : List (String × DerivationMethod) :=
  [("connection.url", .arityError),
   ("connection.host", .fn derive_connection_host),
   ("connection.port", .fn derive_connection_port),
   ("connection.user", .fn derive_connection_user),
   ("connection.password", .fn derive_connection_password),
   ("connection.database", .fn derive_connection_database),
   ("db.name", .fn derive_db_name),
   ("db.connection.type", .fn derive_db_connection_type),
   ("ssl.server.cert.dn", .fn derive_ssl_server_cert_dn),
   ("input.key.format", .fn derive_input_key_format),
   ("input.data.format", .fn derive_input_data_format),
   ("output.key.format", .fn derive_output_key_format),
   ("output.data.format", .fn derive_output_data_format),
   ("output.data.key.format", .fn derive_output_data_key_format),
   ("output.data.value.format", .fn derive_output_data_value_format),
   ("ssl.mode", .fn derive_ssl_mode),
   ("redis.hostname", .fn derive_redis_hostname),
   ("redis.portnumber", .fn derive_redis_portnumber),
   ("redis.ssl.mode", .fn derive_redis_ssl_mode),
   ("azure.servicebus.namespace", .fn derive_servicebus_namespace),
   ("azure.servicebus.sas.keyname", .fn derive_azure_servicebus_sas_keyname),
   ("azure.servicebus.sas.key", .fn derive_azure_servicebus_sas_key),
   ("azure.servicebus.entity.name", .fn derive_azure_servicebus_entity_name),
   ("key.converter.key.subject.name.strategy", .fn derive_subject_name_strategy),
   ("value.converter.value.subject.name.strategy", .fn derive_subject_name_strategy),
   ("key.subject.name.strategy", .fn derive_subject_name_strategy),
   ("subject.name.strategy", .fn derive_subject_name_strategy),
   ("value.subject.name.strategy", .fn derive_subject_name_strategy),
   ("value.converter.reference.subject.name.strategy",
     .fn derive_reference_subject_name_strategy),
   ("key.converter.reference.subject.name.strategy",
     .fn derive_reference_subject_name_strategy)]

/-- `_get_config_derivation_method` (lines 1933-1986). -/
def getConfigDerivationMethod (n : String) : Option DerivationMethod :=
  (config_derivation_methods.find? (fun p => p.1 = n)).map (fun p => p.2)

/-! ## The rule interpreter (4.3) and the orchestrator `transformSMToFm` -/

/-- The mutable state threaded through one mapping pass: the FM config
dict, the (write-only) transforms dict, the warning and error lists and
the semantic-match set (kept as an insertion-ordered list). -/
structure MapState where
  fm_configs : ConfigMap := []
  transforms_configs : ConfigMap := []
  warnings : List String := []
  errors : List String := []
  semantic_match_list : List String := []
  deriving DecidableEq, Repr

/-- `infer_dynamic_mappings` (lines 2172-2187). -/
def infer_dynamic_mappings (mapperName : String) (userVal : String) : Option String :=
  if mapperName = "value.converter.reference.subject.name.strategy.mapper" then
    cmGet
      [("io.confluent.kafka.serializers.subject.TopicNameStrategy", "TopicNameStrategy"),
       ("io.confluent.kafka.serializers.subject.RecordNameStrategy", "RecordNameStrategy"),
       ("io.confluent.kafka.serializers.subject.TopicRecordNameStrategy",
         "TopicRecordNameStrategy")] userVal
  else none

/-- `_apply_reverse_switch` (lines 3092-3100). -/
def apply_reverse_switch : List (String × String) → String → Option String
  | [], _ => none
  | (k, v) :: rest, u =>
    if v = u then (if k = "default" then none else some k)
    else apply_reverse_switch rest u

/-- The `has_matchers` test of `_process_non_internal_switch_case`. -/
def hasMatchers (mapping : List (String × String)) : Bool :=
  mapping.any (fun kv => containsPlaceholder kv.2)

/-- `_process_non_internal_switch_case` (lines 2132-2170). -/
def process_non_internal_switch_case (ccd : ConnectorConfigDef)
    (tcd : TemplateConfigDef) (mapping : List (String × String))
    (userConfigs : ConfigMap) (st : MapState) : MapState :=
  if hasMatchers mapping then
    if (getConfigDerivationMethod tcd.name).isSome then st
    else { st with semantic_match_list := smAdd st.semantic_match_list ccd.name }
  else
    match cmGet userConfigs ccd.name with
    | none => st
    | some userValue =>
      match apply_reverse_switch mapping userValue with
      | some hl => { st with fm_configs := cmInsert st.fm_configs tcd.name hl }
      | none =>
        { st with warnings := st.warnings ++
            ["User value \x27" ++ userValue ++ "\x27 for \x27" ++ ccd.name ++
              "\x27 does not match any value in templateswitch case."] }

/-- The pair loop of `_process_switch_case` (lines 2104-2130). -/
def processSwitchPairs (ccd : ConnectorConfigDef) (userConfigs : ConfigMap)
    (defs : List TemplateConfigDef) :
    List (String × List (String × String)) → MapState → MapState
  | [], st => st
  | (tk, mapping) :: rest, st =>
    if (cmGet st.fm_configs tk).isSome then st
    else
      match find_template_config_def_by_name tk defs with
      | some tcd =>
        if tcd.internal then
          processSwitchPairs ccd userConfigs defs rest
            { st with warnings := st.warnings ++
                ["The transformed FM config is internal and will be inferred. User given value will be ignored."] }
        else
          processSwitchPairs ccd userConfigs defs rest
            (process_non_internal_switch_case ccd tcd mapping userConfigs st)
      | none => processSwitchPairs ccd userConfigs defs rest st

def process_switch_case (ccd : ConnectorConfigDef) (userConfigs : ConfigMap)
    (defs : List TemplateConfigDef) (st : MapState) : MapState :=
  processSwitchPairs ccd userConfigs defs (ccd.switch.getD []) st

/-- The referenced-keys loop of `_process_value_case` (lines
2059-2092), with its early returns. -/
def processReferencedKeys (ccd : ConnectorConfigDef) (value : String)
    (userVal : String) (defs : List TemplateConfigDef) (userConfigs : ConfigMap) :
    List String → MapState → MapState
  | [], st => st
  | rk :: rest, st =>
    if (cmGet st.fm_configs ccd.name).isSome then st
    else if (match cmGet userConfigs rk with
             | some s => pyStrip s != ""
             | none => false : Bool) then
      { st with fm_configs := cmInsert st.fm_configs ccd.name userVal }
    else
      match find_template_config_def_by_name rk defs with
      | some rtcd =>
        if rtcd.internal then
          processReferencedKeys ccd value userVal defs userConfigs rest
            { st with warnings := st.warnings ++
                ["The transformed FM config is internal and will be inferred. User given value will be ignored."] }
        else if (getConfigDerivationMethod rk).isSome then st
        else if value = "$\x7b" ++ rk ++ "\x7d" then
          processReferencedKeys ccd value userVal defs userConfigs rest
            { st with fm_configs := cmInsert st.fm_configs rk userVal }
        else processReferencedKeys ccd value userVal defs userConfigs rest st
      | none =>
        processReferencedKeys ccd value userVal defs userConfigs rest
          { st with semantic_match_list := smAdd st.semantic_match_list ccd.name }

/-- The internal-marker test of `_process_value_case` (lines
2045-2052). -/
def isInternalValueMarker (value : String) : Bool :=
  strContains value "org.apache.kafka.common.security.plain.PlainLoginModule" ||
  strContains value "/mnt/secrets/connect-sr" ||
  (strContains value "\x7b\x7b.logicalClusterId\x7d\x7d" &&
    !strContains value "/mnt/secrets/connect-external-secrets")

/-- `_process_value_case` (lines 2024-2102); the caller guarantees
`ccd.value` is non-null. -/
def process_value_case (ccd : ConnectorConfigDef) (userVal : String)
    (defs : List TemplateConfigDef) (st : MapState) (userConfigs : ConfigMap) : MapState :=
  match ccd.value with
  | none => st
  | some (.vbool b) =>
    { st with fm_configs := cmInsert st.fm_configs ccd.name (strToLower (pyStr (.vbool b))) }
  | some (.vint n) =>
    { st with fm_configs := cmInsert st.fm_configs ccd.name (pyStr (.vint n)) }
  | some (.vstr value) =>
    if isInternalValueMarker value then
      { st with warnings := st.warnings ++
          [ccd.name ++ " is internal. User given value will be ignored."] }
    else if containsPlaceholder value then
      processReferencedKeys ccd value userVal defs userConfigs
        (find_referenced_keys value (defs.map (fun d => d.name))) st
    else if value ≠ userVal then
      { st with warnings := st.warnings ++
          [ccd.name ++ " : FM config has constant value \x27" ++ value ++
            "\x27 but user provided \x27" ++ userVal ++ "\x27. User given value will be ignored."] }
    else { st with fm_configs := cmInsert st.fm_configs ccd.name userVal }

/-- `_process_dynamic_mapper_case` (lines 2189-2228); the middle branch
re-runs the lookup that just failed, so it can never fire, but it is
embedded literally. -/
def process_dynamic_mapper_case (ccd : ConnectorConfigDef) (userVal : String)
    (defs : List TemplateConfigDef) (st : MapState) : MapState :=
  match find_template_config_def_by_name ccd.name defs with
  | some _ => { st with fm_configs := cmInsert st.fm_configs ccd.name userVal }
  | none =>
    match ccd.dynamicMapper with
    | some (some mapperName) =>
      match find_template_config_def_by_name ccd.name defs with
      | some ftd =>
        match infer_dynamic_mappings mapperName userVal with
        | some dv => { st with fm_configs := cmInsert st.fm_configs ftd.name dv }
        | none =>
          if (cmGet st.fm_configs ftd.name).isSome then st
          else { st with semantic_match_list := smAdd st.semantic_match_list ccd.name }
      | none => { st with semantic_match_list := smAdd st.semantic_match_list ccd.name }
    | _ => { st with semantic_match_list := smAdd st.semantic_match_list ccd.name }

/-- `_process_null_value_case` (lines 2230-2241). -/
def process_null_value_case (ccd : ConnectorConfigDef) (userVal : String)
    (st : MapState) : MapState :=
  { st with fm_configs := cmInsert st.fm_configs ccd.name userVal }

/-- `_process_user_config_in_connector_config_def` (lines 1988-2022). -/
def process_user_config_in_connector_config_def (ccd : ConnectorConfigDef)
    (userVal : String) (defs : List TemplateConfigDef) (st : MapState)
    (userConfigs : ConfigMap) : MapState :=
  match ccd.value with
  | some _ => process_value_case ccd userVal defs st userConfigs
  | none =>
    match ccd.switch with
    | some _ => process_switch_case ccd userConfigs defs st
    | none =>
      match ccd.dynamicMapper with
      | some _ => process_dynamic_mapper_case ccd userVal defs st
      | none => process_null_value_case ccd userVal st

/-- The consumer/producer ↔ override rewrite of step 2 (lines
1745-1752), applied afresh at each template-def iteration. -/
def rewriteToggle (k : String) : String :=
  if (strStartsWith k "consumer." || strStartsWith k "producer.") &&
      !strStartsWith k "consumer.override." && !strStartsWith k "producer.override." then
    strReplaceAll (strReplaceAll k "consumer." "consumer.override.") "producer."
      "producer.override."
  else if strStartsWith k "consumer.override." || strStartsWith k "producer.override." then
    strReplaceAll (strReplaceAll k "consumer.override." "consumer.") "producer.override."
      "producer."
  else k

/-- The template-defs scan of step 2 (lines 1742-1760): the loop
variable is re-rewritten on every iteration, so the key alternates;
returns whether a def matched, plus the final (possibly rewritten) key
used in the unused-config warning. -/
def step2TemplateSearchAux : List TemplateConfigDef → String → Bool × String
  | [], cur => (false, cur)
  | td :: rest, cur =>
    let next := rewriteToggle cur
    if td.name = next || td.name = cur then (true, next)
    else step2TemplateSearchAux rest next

/-- One iteration of the step-2 user-config loop (lines 1702-1766). -/
def step2Item (connectorDefs : List ConnectorConfigDef)
    (templateDefs : List TemplateConfigDef) (configDict : ConfigMap)
    (st : MapState) (kv : String × String) : MapState :=
  if strStartsWith kv.1 "connector.class" || strStartsWith kv.1 "name" then st
  else if strStartsWith kv.1 "transforms" || strStartsWith kv.1 "predicates" then
    { st with transforms_configs := cmInsert st.transforms_configs kv.1 kv.2 }
  else
    match connectorDefs.find? (fun cd => cd.name = kv.1) with
    | some ccd =>
      process_user_config_in_connector_config_def ccd kv.2 templateDefs st configDict
    | none =>
      let res := step2TemplateSearchAux templateDefs kv.1
      if res.1 then st
      else
        { st with warnings := st.warnings ++
            ["Unused connector config \x27" ++ res.2 ++
              "\x27. Given value will be ignored. Default value will be used if any."] }

/-- Step 3, the template-defs pass (lines 1773-1793): each non-null
derived value is assigned into `fm_configs` unconditionally; invoking
the registry entry for `connection.url` raises (arity mismatch), which
the surrounding `try` turns into one error message that aborts the rest
of the pass. -/
def templateDefsPassGo (configDict : ConfigMap) (templateDefs : List TemplateConfigDef) :
    List TemplateConfigDef → ConfigMap → ConfigMap × List String
  | [], fm => (fm, [])
  | td :: rest, fm =>
    match getConfigDerivationMethod td.name with
    | none => templateDefsPassGo configDict templateDefs rest fm
    | some .arityError =>
      (fm, ["Error processing template configs: " ++ connectionUrlTypeErrorText])
    | some (.fn f) =>
      match f configDict fm templateDefs td.name with
      | some v => templateDefsPassGo configDict templateDefs rest (cmInsert fm td.name v)
      | none => templateDefsPassGo configDict templateDefs rest fm

def templateDefsPass (configDict : ConfigMap) (templateDefs : List TemplateConfigDef)
    (fm : ConfigMap) : ConfigMap × List String :=
  templateDefsPassGo configDict templateDefs templateDefs fm

/-- The override rewrite of step 4 (lines 1803-1809; note the
missing trailing dots in these `startswith` tests). -/
def rewrite4 (k : String) : String :=
  if strStartsWith k "producer.override" || strStartsWith k "consumer.override" then
    strReplaceAll (strReplaceAll k "consumer.override." "consumer.") "producer.override."
      "producer."
  else if strStartsWith k "producer." || strStartsWith k "consumer." then
    strReplaceAll (strReplaceAll k "producer." "producer.override.") "consumer."
      "consumer.override."
  else k

/-- The per-def match scan of step 4: each def is compared first with
the rewritten key, then with the original. -/
def step4Scan (defs : List TemplateConfigDef) (k orig : String) : Option Bool :=
  match defs with
  | [] => none
  | td :: rest =>
    if td.name = k then some true
    else if td.name = orig then some false
    else step4Scan rest k orig

/-- The twin `set.remove` calls of step 4 (lines 1822-1824, and
1830-1832): `remove` raises `KeyError` when the element is absent; the
exception is caught per user key, so only the removals that succeeded
before it stick. -/
def step4RemovePair (sml : List String) (k orig : String) : List String :=
  if sml.contains k || sml.contains orig then
    if sml.contains k then
      let sml1 := listRemove sml k
      if sml1.contains orig then listRemove sml1 orig else sml1
    else sml
  else sml

/-- One iteration of the step-4 direct-name reconciliation loop (lines
1795-1836). -/
def step4Item (templateDefs : List TemplateConfigDef) (st : MapState)
    (kv : String × String) : MapState :=
  if cmContains st.fm_configs kv.1 then
    { st with semantic_match_list :=
        if st.semantic_match_list.contains kv.1 then listRemove st.semantic_match_list kv.1
        else st.semantic_match_list }
  else
    let k := rewrite4 kv.1
    match step4Scan templateDefs k kv.1 with
    | some true =>
      { st with fm_configs := cmInsert st.fm_configs k kv.2
                semantic_match_list := step4RemovePair st.semantic_match_list k kv.1 }
    | some false =>
      { st with fm_configs := cmInsert st.fm_configs kv.1 kv.2
                semantic_match_list := step4RemovePair st.semantic_match_list k kv.1 }
    | none => st

/-- The `fm_properties_dict` built for semantic matching (lines
3130-3133): a dict keyed by def name, last same-named def winning. -/
def dictInsertDef : List TemplateConfigDef → TemplateConfigDef → List TemplateConfigDef
  | [], td => [td]
  | d :: rest, td => if d.name = td.name then td :: rest else d :: dictInsertDef rest td

def buildFmPropertiesDict (defs : List TemplateConfigDef) : List TemplateConfigDef :=
  defs.foldl dictInsertDef []

/-- `_do_semantic_matching` (lines 3102-3183), parameterized by the
similarity scorer; a matched FM key is written only when not already
present in `fm_configs`. -/
def doSemanticMatching (score : SmProp → TemplateConfigDef → ℚ) (fm : ConfigMap)
    (sml : List String) (userConfigs : ConfigMap) (templateDefs : List TemplateConfigDef)
    (smTemplate : Option SmTemplate) : ConfigMap :=
  if sml = [] then fm
  else
    let fmProps := buildFmPropertiesDict templateDefs
    sml.foldl
      (fun fm cn =>
        match cmGet userConfigs cn with
        | none => fm
        | some userValue =>
          let smProp :=
            match get_sm_property_from_template cn smTemplate with
            | some p => p
            | none =>
              { name := cn, description := "User config: " ++ cn,
                typeName := "STRING", sectionName := "General" }
          match find_best_match score smProp fmProps (7 / 10) with
          | some res =>
            match fmProps.find? (fun d => d = res.matched_fm_property) with
            | some d =>
              if d.name ≠ "" && !cmContains fm d.name then cmInsert fm d.name userValue
              else fm
            | none => fm
          | none => fm)
      fm

/-- The required-config error message. -/
def requiredErrMsg (n : String) : String :=
  "Required FM Config \x27" ++ n ++ "\x27 could not be derived from given configs."

/-- Python `repr` of a list of strings, as interpolated into the
recommended-values error message. -/
def pyListRepr (l : List String) : String :=
  "[" ++ joinCommaSpace (l.map (fun s => "\x27" ++ s ++ "\x27")) ++ "]"

def recommendedErrMsg (n v : String) (rec : List String) : String :=
  "FM Config \x27" ++ n ++ "\x27 value \x27" ++ v ++
    "\x27 is not in the recommended values list: " ++ pyListRepr rec

/-- Append guarded by the duplicate check the source performs. -/
def guardedAppend (errs : List String) (msg : String) : List String :=
  if errs.contains msg then errs else errs ++ [msg]

/-- `isRequired` coercion of `_check_required_configs` (lines
3201-3206): booleans taken as-is, strings compared case-insensitively
with `"true"`, anything else `False`. -/
def isRequiredVal : PyVal → Bool
  | .vbool b => b
  | .vstr s => strToLower s = "true"
  | _ => false

/-- The required/default half of one `_check_required_configs`
iteration (lines 3214-3230). -/
def checkRequiredPhase1 (st : ConfigMap × List String) (td : TemplateConfigDef) :
    ConfigMap × List String :=
  if isRequiredVal td.required && !cmContains st.1 td.name then
    match td.default_value with
    | some dv => (cmInsert st.1 td.name (pyStr dv), st.2)
    | none => (st.1, guardedAppend st.2 (requiredErrMsg td.name))
  else st

/-- The recommended-values half of one `_check_required_configs`
iteration (lines 3234-3257); it never changes `fm_configs`. -/
def checkRequiredPhase2 (st : ConfigMap × List String) (td : TemplateConfigDef) :
    ConfigMap × List String :=
  match cmGet st.1 td.name with
  | some v =>
    if td.recommended_values ≠ [] && !td.recommended_values.contains v then
      if !(td.recommended_values.map strToLower).contains (strToLower v) then
        (st.1, guardedAppend st.2 (recommendedErrMsg td.name v td.recommended_values))
      else st
    else st
  | none => st

/-- One iteration of `_check_required_configs` (lines 3185-3257):
internal defs are skipped, the required/default handling runs first and
the recommended-values check then sees any default just written. -/
def checkRequiredStep (st : ConfigMap × List String) (td : TemplateConfigDef) :
    ConfigMap × List String :=
  if td.internal then st else checkRequiredPhase2 (checkRequiredPhase1 st td) td

def check_required_configs (fm : ConfigMap) (defs : List TemplateConfigDef)
    (errors : List String) : ConfigMap × List String :=
  defs.foldl checkRequiredStep (fm, errors)

/-- The result dictionary of `transformSMToFm`: the early returns keep
the initial `{'fm_configs': [], 'warnings': [], 'errors': [...]}` shape
(no `name` key), the normal path returns all four fields. -/
structure TransformResult where
  name : Option String := none
  fm_configs : ConfigMap := []
  warnings : List String := []
  errors : List String := []
  deriving DecidableEq, Repr

/-- The template-present path of `transformSMToFm` (source lines
1611-1873): steps 1-7 over the located FM template. -/
def transformWithTemplate (score : SmProp → TemplateConfigDef → ℚ)
    (allowedTransformTypes : List String) (smTemplate : Option SmTemplate)
    (fmT : FmTemplate) (connector_name : String) (config_dict : ConfigMap) :
    TransformResult :=
  let connector_config_defs := extract_connector_config_defs fmT
  let template_config_defs := extract_template_config_defs fmT
  -- step 1: connector.class, name, tasks.max
  let innerTemplateId : Option String :=
    match fmT.templates with
    | t :: _ => t.template_id
    | [] => none
  let fm1 :=
    match innerTemplateId with
    | some tid =>
      if tid ≠ "" then cmInsert [] "connector.class" tid
      else cmInsert [] "connector.class" (cmGetD config_dict "connector.class" "")
    | none => cmInsert [] "connector.class" (cmGetD config_dict "connector.class" "")
  let fm2 := cmInsert fm1 "name" connector_name
  let fm3 :=
    if cmContains config_dict "tasks.max" then
      cmInsert fm2 "tasks.max" (cmGetD config_dict "tasks.max" "")
    else cmInsert fm2 "tasks.max" "1"
  if template_config_defs = [] then {}
  else
    -- step 2: user configs against connector config defs
    let st1 := config_dict.foldl
      (step2Item connector_config_defs template_config_defs config_dict)
      { fm_configs := fm3 }
    -- step 3: derivation methods over template config defs
    let pass3 := templateDefsPass config_dict template_config_defs st1.fm_configs
    let st2 := { st1 with fm_configs := pass3.1, errors := st1.errors ++ pass3.2 }
    -- step 4: direct-name reconciliation
    let st3 := config_dict.foldl (step4Item template_config_defs) st2
    -- step 5: semantic matching
    let fm5 := doSemanticMatching score st3.fm_configs st3.semantic_match_list
      config_dict template_config_defs smTemplate
    -- step 6: required / recommended validation
    let pass6 := check_required_configs fm5 template_config_defs st3.errors
    -- step 7: transform classification and merge
    let transforms_data :=
      classify_transform_configs_with_full_chain config_dict allowedTransformTypes
    let fm7 := cmUpdate pass6.1 transforms_data.allowed
    { name := some connector_name, fm_configs := fm7, warnings := st3.warnings,
      errors := pass6.2 ++ transforms_data.mapping_errors }

/-- `transformSMToFm` (src/connector_comparator.py, lines 1555-1873).

Environmental inputs are parameters: `score` stands for the similarity
scorer of the semantic matcher; `allowedTransformTypes` for the
transform-type set `get_FM_SMT` fetches; `smTemplate`/`fmTemplate` for
the templates `_get_templates_for_connector` loads.  Input values are
already strings (the `str()` normalization).  The `isinstance`/missing-
key template validations of the source cannot fire in this typed model;
the reachable early return for an empty `template_config_defs` list
returns the pristine initial result — the message appended at source
line 1697 goes to a local list that the early return does not include. -/
def transformSMToFm (score : SmProp → TemplateConfigDef → ℚ)
    (allowedTransformTypes : List String) (smTemplate : Option SmTemplate)
    (fmTemplate : Option FmTemplate) (connector_name : String)
    (user_configs : ConfigMap) : TransformResult :=
  if user_configs = [] then
    { errors := ["No configuration properties provided"] }
  else
    let config_dict := user_configs
    if !cmContains config_dict "connector.class" then
      { errors := ["Missing required \x27connector.class\x27 configuration"] }
    else
      let template_id := (cmGet config_dict "connector.class").getD ""
      match fmTemplate with
      | none =>
        { fm_configs := [("connector.class", template_id), ("name", connector_name)],
          errors := ["No FM template found for connector class: " ++ template_id] }
      | some fmT =>
        transformWithTemplate score allowedTransformTypes smTemplate fmT connector_name
          config_dict

/-! ## Claims about the reverse-switch machinery -/

/-- C6: Reverse-switch `"default"` semantics: `_apply_reverse_switch`
never returns the literal `"default"`; the first mapping entry whose
value equals the user value has its key returned (and written to
`fm_configs` under the template config name by the no-placeholder
branch of `_process_non_internal_switch_case`), except that a matching
entry keyed `"default"` resolves to no value; and with no value match
(or a `"default"` match) nothing is written and a warning is
recorded. -/
theorem claim_C6_reverse_switch_default
    (mapping : List (String × String)) (u : String) :
    (apply_reverse_switch mapping u ≠ some "default") ∧
    (∀ k v', mapping.find? (fun kv => kv.2 = u) = some (k, v') →
      (k ≠ "default" → apply_reverse_switch mapping u = some k) ∧
      (k = "default" → apply_reverse_switch mapping u = none)) ∧
    (mapping.find? (fun kv => kv.2 = u) = none → apply_reverse_switch mapping u = none) ∧
    (∀ (ccd : ConnectorConfigDef) (tcd : TemplateConfigDef) (userConfigs : ConfigMap)
        (st : MapState),
      hasMatchers mapping = false → cmGet userConfigs ccd.name = some u →
      (∀ k, apply_reverse_switch mapping u = some k →
        process_non_internal_switch_case ccd tcd mapping userConfigs st =
          { st with fm_configs := cmInsert st.fm_configs tcd.name k }) ∧
      (apply_reverse_switch mapping u = none →
        process_non_internal_switch_case ccd tcd mapping userConfigs st =
          { st with warnings := st.warnings ++
              ["User value \x27" ++ u ++ "\x27 for \x27" ++ ccd.name ++
                "\x27 does not match any value in templateswitch case."] })) := by
  refine ⟨?_, ?_, ?_, ?_⟩
  · induction mapping with
    | nil => simp [apply_reverse_switch]
    | cons kv rest ih =>
      obtain ⟨k, v⟩ := kv
      by_cases hv : v = u
      · by_cases hk : k = "default" <;> simp [apply_reverse_switch, hv, hk]
      · simpa [apply_reverse_switch, hv] using ih
  · induction mapping with
    | nil => intro k v' h; simp at h
    | cons kv rest ih =>
      obtain ⟨k0, v0⟩ := kv
      intro k v' h
      by_cases hv : v0 = u
      · rw [List.find?_cons_of_pos _ (by simpa using hv)] at h
        obtain ⟨hk, _⟩ := Prod.mk.injEq .. ▸ (Option.some.inj h)
        subst hk
        constructor
        · intro hne; simp [apply_reverse_switch, hv, hne]
        · intro hde; simp [apply_reverse_switch, hv, hde]
      · rw [List.find?_cons_of_neg _ (by simpa using hv)] at h
        have := ih k v' h
        constructor
        · intro hne; simpa [apply_reverse_switch, hv] using this.1 hne
        · intro hde; simpa [apply_reverse_switch, hv] using this.2 hde
  · induction mapping with
    | nil => intro _; simp [apply_reverse_switch]
    | cons kv rest ih =>
      obtain ⟨k0, v0⟩ := kv
      intro h
      by_cases hv : v0 = u
      · rw [List.find?_cons_of_pos _ (by simpa using hv)] at h
        simp at h
      · rw [List.find?_cons_of_neg _ (by simpa using hv)] at h
        simpa [apply_reverse_switch, hv] using ih h
  · intro ccd tcd userConfigs st hnm hget
    constructor
    · intro k hres
      simp [process_non_internal_switch_case, hnm, hget, hres]
    · intro hres
      simp [process_non_internal_switch_case, hnm, hget, hres]

/-- Witness for C6 at the spec's reference input: the one-entry mapping
`{"default": "foo"}` matched against user value `"foo"` resolves to no
value, nothing is written and the warning is recorded. -/
theorem claim_C6_reverse_switch_default_witness :
    apply_reverse_switch [("default", "foo")] "foo" = none ∧
    process_non_internal_switch_case { name := "mode" } { name := "fm.mode" }
      [("default", "foo")] [("mode", "foo")] {} =
      { warnings := ["User value \x27foo\x27 for \x27mode\x27 does not match any value in templateswitch case."] } := by
  have h := claim_C6_reverse_switch_default [("default", "foo")] "foo"
  have hres : apply_reverse_switch [("default", "foo")] "foo" = none :=
    (h.2.1 "default" "foo" rfl).2 rfl
  refine ⟨hres, ?_⟩
  have := (h.2.2.2 { name := "mode" } { name := "fm.mode" } [("mode", "foo")] {} rfl rfl).2 hres
  simpa using this

/-! ## Claims about `_check_required_configs` -/

theorem foldl_preserve_mem {β α : Type} {P : β → Prop} {step : β → α → β} :
    ∀ (l : List α), (∀ acc a, a ∈ l → P acc → P (step acc a)) →
      ∀ acc : β, P acc → P (l.foldl step acc) := by
  intro l
  induction l with
  | nil => intro _ acc h; exact h
  | cons a rest ih =>
    intro hstep acc h
    exact ih (fun acc' a' hmem => hstep acc' a' (List.mem_cons_of_mem _ hmem))
      (step acc a) (hstep acc a (List.mem_cons_self a rest) h)

theorem guardedAppend_count_le_one (errs : List String) (m msg : String)
    (h : errs.count m ≤ 1) : (guardedAppend errs msg).count m ≤ 1 := by
  unfold guardedAppend
  split
  · exact h
  · rename_i hnc
    have hnotmem : msg ∉ errs := by simpa using hnc
    by_cases hm : msg = m
    · subst hm
      have : errs.count msg = 0 := List.count_eq_zero.mpr hnotmem
      simp [List.count_append, this]
    · simp [List.count_append, List.count_singleton', hm, h]

theorem guardedAppend_mem (errs : List String) (m msg : String) (h : m ∈ errs) :
    m ∈ guardedAppend errs msg := by
  unfold guardedAppend
  split
  · exact h
  · exact List.mem_append_left _ h

theorem guardedAppend_mem_self (errs : List String) (m : String) :
    m ∈ guardedAppend errs m := by
  unfold guardedAppend
  split
  · rename_i hc; simpa using hc
  · simp

theorem checkRequiredPhase1_count_le_one (st : ConfigMap × List String)
    (td : TemplateConfigDef) (m : String) (h : st.2.count m ≤ 1) :
    ((checkRequiredPhase1 st td).2).count m ≤ 1 := by
  unfold checkRequiredPhase1
  split
  · split
    · exact h
    · exact guardedAppend_count_le_one _ m _ h
  · exact h

theorem checkRequiredPhase1_mem (st : ConfigMap × List String)
    (td : TemplateConfigDef) (m : String) (h : m ∈ st.2) :
    m ∈ (checkRequiredPhase1 st td).2 := by
  unfold checkRequiredPhase1
  split
  · split
    · exact h
    · exact guardedAppend_mem _ m _ h
  · exact h

theorem checkRequiredPhase1_get_preserve (st : ConfigMap × List String)
    (td : TemplateConfigDef) (n : String) (hne : td.name ≠ n) :
    cmGet (checkRequiredPhase1 st td).1 n = cmGet st.1 n := by
  unfold checkRequiredPhase1
  split
  · split
    · exact cmGet_cmInsert_ne _ _ _ _ hne
    · rfl
  · rfl

theorem checkRequiredPhase2_fst (st : ConfigMap × List String) (td : TemplateConfigDef) :
    (checkRequiredPhase2 st td).1 = st.1 := by
  unfold checkRequiredPhase2
  split
  · split
    · split <;> rfl
    · rfl
  · rfl

theorem checkRequiredPhase2_count_le_one (st : ConfigMap × List String)
    (td : TemplateConfigDef) (m : String) (h : st.2.count m ≤ 1) :
    ((checkRequiredPhase2 st td).2).count m ≤ 1 := by
  unfold checkRequiredPhase2
  split
  · split
    · split
      · exact guardedAppend_count_le_one _ m _ h
      · exact h
    · exact h
  · exact h

theorem checkRequiredPhase2_mem (st : ConfigMap × List String)
    (td : TemplateConfigDef) (m : String) (h : m ∈ st.2) :
    m ∈ (checkRequiredPhase2 st td).2 := by
  unfold checkRequiredPhase2
  split
  · split
    · split
      · exact guardedAppend_mem _ m _ h
      · exact h
    · exact h
  · exact h

theorem checkRequiredStep_count_le_one (st : ConfigMap × List String)
    (td : TemplateConfigDef) (m : String) (h : st.2.count m ≤ 1) :
    ((checkRequiredStep st td).2).count m ≤ 1 := by
  unfold checkRequiredStep
  split
  · exact h
  · exact checkRequiredPhase2_count_le_one _ td m (checkRequiredPhase1_count_le_one st td m h)

theorem checkRequiredStep_mem (st : ConfigMap × List String)
    (td : TemplateConfigDef) (m : String) (h : m ∈ st.2) :
    m ∈ (checkRequiredStep st td).2 := by
  unfold checkRequiredStep
  split
  · exact h
  · exact checkRequiredPhase2_mem _ td m (checkRequiredPhase1_mem st td m h)

theorem checkRequiredStep_get_preserve (st : ConfigMap × List String)
    (td : TemplateConfigDef) (n : String) (hne : td.name ≠ n) (r : Option String)
    (h : cmGet st.1 n = r) : cmGet (checkRequiredStep st td).1 n = r := by
  unfold checkRequiredStep
  split
  · exact h
  · rw [checkRequiredPhase2_fst, checkRequiredPhase1_get_preserve st td n hne]
    exact h

theorem checkRequiredStep_absent_preserve (st : ConfigMap × List String)
    (td : TemplateConfigDef) (n : String) (hne : td.name ≠ n)
    (h : cmContains st.1 n = false) : cmContains (checkRequiredStep st td).1 n = false := by
  have := checkRequiredStep_get_preserve st td n hne (cmGet st.1 n) rfl
  revert h
  simp [cmContains, this]

/-- C7: Required-config validation: a non-internal template config def
with `required` true (boolean, or the string `"true"` case-insensitively)
whose name — unique among the defs — is absent from `fm_configs` when
`_check_required_configs` runs, either has its `default_value`
stringified into `fm_configs` (when present), or contributes exactly one
error naming it and saying it could not be derived from given configs,
with duplicates suppressed no matter how many defs would emit the same
message. -/
theorem claim_C7_required_config_validation
    (fm : ConfigMap) (defs : List TemplateConfigDef) (errors₀ : List String)
    (d : TemplateConfigDef) (hmem : d ∈ defs)
    (hnodup : (defs.map (fun x => x.name)).Nodup)
    (hint : d.internal = false) (hreq : isRequiredVal d.required = true)
    (habs : cmContains fm d.name = false)
    (hm0 : requiredErrMsg d.name ∉ errors₀) :
    (∀ dv, d.default_value = some dv →
      cmGet (check_required_configs fm defs errors₀).1 d.name = some (pyStr dv)) ∧
    (d.default_value = none →
      ((check_required_configs fm defs errors₀).2).count (requiredErrMsg d.name) = 1) := by
  obtain ⟨pre, post, rfl⟩ := List.append_of_mem hmem
  have hmapeq : ((pre ++ d :: post).map (fun x => x.name)) =
      pre.map (fun x => x.name) ++ d.name :: post.map (fun x => x.name) := by simp
  rw [hmapeq] at hnodup
  rcases List.nodup_append.mp hnodup with ⟨_, hnd2, hdisj⟩
  have hpre_ne : ∀ td ∈ pre, td.name ≠ d.name := by
    intro td htd heq
    exact (hdisj (List.mem_map_of_mem _ htd)) (by simp [heq])
  have hpost_ne : ∀ td ∈ post, td.name ≠ d.name := by
    intro td htd heq
    have := (List.nodup_cons.mp hnd2).1
    exact this (heq ▸ List.mem_map_of_mem _ htd)
  set m := requiredErrMsg d.name with hm
  -- phase A: the defs before `d`
  have hfold : check_required_configs fm (pre ++ d :: post) errors₀ =
      post.foldl checkRequiredStep
        (checkRequiredStep (pre.foldl checkRequiredStep (fm, errors₀)) d) := by
    simp [check_required_configs, List.foldl_append]
  have hA : cmContains (pre.foldl checkRequiredStep (fm, errors₀)).1 d.name = false ∧
      ((pre.foldl checkRequiredStep (fm, errors₀)).2).count m ≤ 1 := by
    refine foldl_preserve_mem (P := fun st =>
      cmContains st.1 d.name = false ∧ st.2.count m ≤ 1) pre ?_ (fm, errors₀)
      ⟨habs, by simp [List.count_eq_zero.mpr hm0]⟩
    intro acc td htd hacc
    exact ⟨checkRequiredStep_absent_preserve acc td d.name (hpre_ne td htd) hacc.1,
      checkRequiredStep_count_le_one acc td m hacc.2⟩
  set stA := pre.foldl checkRequiredStep (fm, errors₀) with hstA
  constructor
  · -- default present: the value is written at d's step and survives
    intro dv hdv
    have hd : cmGet (checkRequiredStep stA d).1 d.name = some (pyStr dv) := by
      unfold checkRequiredStep
      rw [if_neg (by simp [hint]), checkRequiredPhase2_fst]
      unfold checkRequiredPhase1
      rw [if_pos (by simp [hreq, hA.1]), hdv]
      exact cmGet_cmInsert_self stA.1 d.name (pyStr dv)
    rw [hfold]
    exact foldl_preserve_mem (P := fun st => cmGet st.1 d.name = some (pyStr dv)) post
      (fun acc td htd hacc =>
        checkRequiredStep_get_preserve acc td d.name (hpost_ne td htd) _ hacc)
      _ hd
  · -- no default: exactly one deduplicated error
    intro hdv
    have hstillAbsent : cmGet stA.1 d.name = none := by
      have h1 := hA.1
      unfold cmContains at h1
      exact Option.not_isSome_iff_eq_none.mp (by simp [h1])
    have hstep : checkRequiredStep stA d = (stA.1, guardedAppend stA.2 m) := by
      unfold checkRequiredStep
      rw [if_neg (by simp [hint])]
      have hph1 : checkRequiredPhase1 stA d = (stA.1, guardedAppend stA.2 m) := by
        unfold checkRequiredPhase1
        rw [if_pos (by simp [hreq, hA.1]), hdv]
      rw [hph1]
      unfold checkRequiredPhase2
      dsimp only
      rw [hstillAbsent]
    have hd : m ∈ (checkRequiredStep stA d).2 ∧
        ((checkRequiredStep stA d).2).count m ≤ 1 := by
      constructor
      · rw [hstep]
        exact guardedAppend_mem_self _ m
      · exact checkRequiredStep_count_le_one stA d m hA.2
    rw [hfold]
    have hpost : m ∈ (post.foldl checkRequiredStep (checkRequiredStep stA d)).2 ∧
        ((post.foldl checkRequiredStep (checkRequiredStep stA d)).2).count m ≤ 1 := by
      refine foldl_preserve_mem
        (P := fun st : ConfigMap × List String => m ∈ st.2 ∧ st.2.count m ≤ 1) post ?_ _ hd
      intro acc td _ hacc
      exact ⟨checkRequiredStep_mem acc td m hacc.1,
        checkRequiredStep_count_le_one acc td m hacc.2⟩
    have hpos : 0 < ((post.foldl checkRequiredStep (checkRequiredStep stA d)).2).count m :=
      List.count_pos_iff.mpr hpost.1
    omega

/-- Witness for C7: a required def without default missing from the
configs yields exactly one error; a required def with a default gets the
default written. -/
theorem claim_C7_required_config_validation_witness :
    cmGet (check_required_configs [("other", "x")]
      [{ name := "a.b", required := .vbool true, default_value := some (.vstr "dflt") },
       { name := "c.d", required := .vstr "true" }] []).1 "a.b" = some "dflt" ∧
    ((check_required_configs [("other", "x")]
      [{ name := "a.b", required := .vbool true, default_value := some (.vstr "dflt") },
       { name := "c.d", required := .vstr "true" }] []).2).count
      (requiredErrMsg "c.d") = 1 := by
  constructor
  · exact (claim_C7_required_config_validation [("other", "x")]
      [{ name := "a.b", required := .vbool true, default_value := some (.vstr "dflt") },
       { name := "c.d", required := .vstr "true" }] []
      { name := "a.b", required := .vbool true, default_value := some (.vstr "dflt") }
      (by simp) (by simp) rfl rfl rfl (by simp)).1 (.vstr "dflt") rfl
  · exact (claim_C7_required_config_validation [("other", "x")]
      [{ name := "a.b", required := .vbool true, default_value := some (.vstr "dflt") },
       { name := "c.d", required := .vstr "true" }] []
      { name := "c.d", required := .vstr "true" }
      (by simp) (by simp) rfl rfl rfl (by simp)).2 rfl

/-! ## Keys are never deleted: containment monotonicity of every
pipeline stage -/

theorem processReferencedKeys_contains (ccd : ConnectorConfigDef) (value userVal : String)
    (defs : List TemplateConfigDef) (userConfigs : ConfigMap) :
    ∀ (rks : List String) (st : MapState) (k : String),
      cmContains st.fm_configs k = true →
      cmContains (processReferencedKeys ccd value userVal defs userConfigs rks st).fm_configs
        k = true := by
  intro rks
  induction rks with
  | nil => intro st k h; exact h
  | cons rk rest ih =>
    intro st k h
    unfold processReferencedKeys
    split
    · exact h
    · split
      · exact cmContains_cmInsert_of_contains _ _ _ _ h
      · split
        · split
          · exact ih _ k h
          · split
            · exact h
            · split
              · exact ih _ k (cmContains_cmInsert_of_contains _ _ _ _ h)
              · exact ih _ k h
        · exact ih _ k h

theorem process_value_case_contains (ccd : ConnectorConfigDef) (userVal : String)
    (defs : List TemplateConfigDef) (st : MapState) (userConfigs : ConfigMap) (k : String)
    (h : cmContains st.fm_configs k = true) :
    cmContains (process_value_case ccd userVal defs st userConfigs).fm_configs k = true := by
  unfold process_value_case
  split
  · exact h
  · exact cmContains_cmInsert_of_contains _ _ _ _ h
  · exact cmContains_cmInsert_of_contains _ _ _ _ h
  · split
    · exact h
    · split
      · exact processReferencedKeys_contains _ _ _ _ _ _ st k h
      · split
        · exact h
        · exact cmContains_cmInsert_of_contains _ _ _ _ h

theorem process_non_internal_switch_case_contains (ccd : ConnectorConfigDef)
    (tcd : TemplateConfigDef) (mapping : List (String × String)) (userConfigs : ConfigMap)
    (st : MapState) (k : String) (h : cmContains st.fm_configs k = true) :
    cmContains (process_non_internal_switch_case ccd tcd mapping userConfigs st).fm_configs
      k = true := by
  unfold process_non_internal_switch_case
  split
  · split
    · exact h
    · exact h
  · split
    · exact h
    · split
      · exact cmContains_cmInsert_of_contains _ _ _ _ h
      · exact h

theorem processSwitchPairs_contains (ccd : ConnectorConfigDef) (userConfigs : ConfigMap)
    (defs : List TemplateConfigDef) :
    ∀ (pairs : List (String × List (String × String))) (st : MapState) (k : String),
      cmContains st.fm_configs k = true →
      cmContains (processSwitchPairs ccd userConfigs defs pairs st).fm_configs k = true := by
  intro pairs
  induction pairs with
  | nil => intro st k h; exact h
  | cons p rest ih =>
    intro st k h
    obtain ⟨tk, mapping⟩ := p
    unfold processSwitchPairs
    split
    · exact h
    · split
      · split
        · exact ih _ k h
        · exact ih _ k (process_non_internal_switch_case_contains _ _ _ _ st k h)
      · exact ih _ k h

theorem process_dynamic_mapper_case_contains (ccd : ConnectorConfigDef) (userVal : String)
    (defs : List TemplateConfigDef) (st : MapState) (k : String)
    (h : cmContains st.fm_configs k = true) :
    cmContains (process_dynamic_mapper_case ccd userVal defs st).fm_configs k = true := by
  unfold process_dynamic_mapper_case
  split
  · exact cmContains_cmInsert_of_contains _ _ _ _ h
  · split
    · split
      · split
        · exact cmContains_cmInsert_of_contains _ _ _ _ h
        · split
          · exact h
          · exact h
      · exact h
    · exact h

theorem process_user_config_contains (ccd : ConnectorConfigDef) (userVal : String)
    (defs : List TemplateConfigDef) (st : MapState) (userConfigs : ConfigMap) (k : String)
    (h : cmContains st.fm_configs k = true) :
    cmContains
      (process_user_config_in_connector_config_def ccd userVal defs st userConfigs).fm_configs
      k = true := by
  unfold process_user_config_in_connector_config_def
  split
  · exact process_value_case_contains _ _ _ st _ k h
  · split
    · unfold process_switch_case
      exact processSwitchPairs_contains _ _ _ _ st k h
    · split
      · exact process_dynamic_mapper_case_contains _ _ _ st k h
      · exact cmContains_cmInsert_of_contains _ _ _ _ h

theorem step2Item_contains (connectorDefs : List ConnectorConfigDef)
    (templateDefs : List TemplateConfigDef) (configDict : ConfigMap) (st : MapState)
    (kv : String × String) (k : String) (h : cmContains st.fm_configs k = true) :
    cmContains (step2Item connectorDefs templateDefs configDict st kv).fm_configs k = true := by
  unfold step2Item
  split
  · exact h
  · split
    · exact h
    · split
      · exact process_user_config_contains _ _ _ st _ k h
      · dsimp only
        split
        · exact h
        · exact h

theorem templateDefsPassGo_contains (configDict : ConfigMap)
    (templateDefs : List TemplateConfigDef) :
    ∀ (l : List TemplateConfigDef) (fm : ConfigMap) (k : String),
      cmContains fm k = true →
      cmContains (templateDefsPassGo configDict templateDefs l fm).1 k = true := by
  intro l
  induction l with
  | nil => intro fm k h; exact h
  | cons td rest ih =>
    intro fm k h
    unfold templateDefsPassGo
    split
    · exact ih fm k h
    · exact h
    · split
      · exact ih _ k (cmContains_cmInsert_of_contains _ _ _ _ h)
      · exact ih fm k h

theorem step4Item_contains (templateDefs : List TemplateConfigDef) (st : MapState)
    (kv : String × String) (k : String) (h : cmContains st.fm_configs k = true) :
    cmContains (step4Item templateDefs st kv).fm_configs k = true := by
  unfold step4Item
  split
  · exact h
  · dsimp only
    split
    · exact cmContains_cmInsert_of_contains _ _ _ _ h
    · exact cmContains_cmInsert_of_contains _ _ _ _ h
    · exact h

theorem doSemanticMatching_get_preserve (score : SmProp → TemplateConfigDef → ℚ)
    (sml : List String) (userConfigs : ConfigMap) (templateDefs : List TemplateConfigDef)
    (smT : Option SmTemplate) (fm : ConfigMap) (k v : String) (h : cmGet fm k = some v) :
    cmGet (doSemanticMatching score fm sml userConfigs templateDefs smT) k = some v := by
  unfold doSemanticMatching
  split
  · exact h
  · refine foldl_preserve (P := fun m : ConfigMap => cmGet m k = some v) ?_ sml fm h
    intro acc cn hacc
    dsimp only
    split
    · exact hacc
    · split
      · split
        · split
          · rename_i d _ hcond
            have hk : cmContains acc k = true := by simp [cmContains, hacc]
            have hne : d.name ≠ k := by
              intro he
              have : cmContains acc d.name = true := he ▸ hk
              simp [this] at hcond
            rw [cmGet_cmInsert_ne _ _ _ _ hne]
            exact hacc
          · exact hacc
        · exact hacc
      · exact hacc

theorem doSemanticMatching_contains (score : SmProp → TemplateConfigDef → ℚ)
    (sml : List String) (userConfigs : ConfigMap) (templateDefs : List TemplateConfigDef)
    (smT : Option SmTemplate) (fm : ConfigMap) (k : String)
    (h : cmContains fm k = true) :
    cmContains (doSemanticMatching score fm sml userConfigs templateDefs smT) k = true := by
  obtain ⟨v, hv⟩ := Option.isSome_iff_exists.mp h
  simp [cmContains, doSemanticMatching_get_preserve score sml userConfigs templateDefs smT
    fm k v hv]

theorem checkRequiredStep_contains (st : ConfigMap × List String) (td : TemplateConfigDef)
    (k : String) (h : cmContains st.1 k = true) :
    cmContains (checkRequiredStep st td).1 k = true := by
  unfold checkRequiredStep
  split
  · exact h
  · rw [checkRequiredPhase2_fst]
    unfold checkRequiredPhase1
    split
    · split
      · exact cmContains_cmInsert_of_contains _ _ _ _ h
      · exact h
    · exact h

theorem check_required_configs_contains (fm : ConfigMap) (defs : List TemplateConfigDef)
    (errors : List String) (k : String) (h : cmContains fm k = true) :
    cmContains (check_required_configs fm defs errors).1 k = true := by
  unfold check_required_configs
  exact foldl_preserve (P := fun st : ConfigMap × List String => cmContains st.1 k = true)
    (fun st td hst => checkRequiredStep_contains st td k hst) defs (fm, errors) h

/-! ## Claims about the early returns and the tasks.max key -/

/-- C9 counterexample: a non-empty user config without
`connector.class` makes `transformSMToFm` return the pristine initial
result — the error is recorded, but `fm_configs` is the empty dict, so
it does NOT contain the claimed minimal `connector.class`/`name`
entries (those are produced only by the later no-FM-template return,
lines 1602-1609). -/
theorem claim_C9_missing_connector_class_counterexample :
    transformSMToFm (fun _ _ => 0) [] none none "conn" [("foo", "bar")] =
      { errors := ["Missing required \x27connector.class\x27 configuration"] } ∧
    cmContains
      (transformSMToFm (fun _ _ => 0) [] none none "conn" [("foo", "bar")]).fm_configs
      "connector.class" = false ∧
    cmContains
      (transformSMToFm (fun _ _ => 0) [] none none "conn" [("foo", "bar")]).fm_configs
      "name" = false :=
  ⟨rfl, rfl, rfl⟩

/-- C9 amended: for every non-empty user config dict lacking
`connector.class` (source lines 1592-1594), `transformSMToFm` returns
without raising, the result carrying exactly the terminal error
`Missing required 'connector.class' configuration` and the initial
empty `fm_configs`/`warnings` (no `name` key, no minimal output). -/
theorem claim_C9_missing_connector_class (score : SmProp → TemplateConfigDef → ℚ)
    (allowed : List String) (smT : Option SmTemplate) (fmT : Option FmTemplate)
    (cname : String) (ucfg : ConfigMap) (hne : ucfg ≠ [])
    (hmiss : cmContains ucfg "connector.class" = false) :
    transformSMToFm score allowed smT fmT cname ucfg =
      { errors := ["Missing required \x27connector.class\x27 configuration"] } := by
  unfold transformSMToFm
  rw [if_neg hne]
  dsimp only
  rw [if_pos (by simp [hmiss])]

theorem claim_C9_missing_connector_class_witness :
    ([("foo", "bar")] : ConfigMap) ≠ [] ∧
    cmContains [("foo", "bar")] "connector.class" = false ∧
    transformSMToFm (fun _ _ => 0) [] none none "conn" [("foo", "bar")] =
      { errors := ["Missing required \x27connector.class\x27 configuration"] } :=
  ⟨by simp, rfl,
    claim_C9_missing_connector_class (fun _ _ => 0) [] none none "conn"
      [("foo", "bar")] (by simp) rfl⟩

/-- An FM template whose connector configs carry a `tasks.max` value
definition, as real FM templates do. -/
def tmplC10 : FmTemplate :=
  { templates := [{ template_id := some "Tid",
                    config_defs := [{ name := "whatever" }],
                    connector_configs :=
                      [{ name := "tasks.max", value := some (.vbool false) }] }] }

def c10User : ConfigMap := [("connector.class", "X"), ("tasks.max", "7")]

/-- C10 counterexample: the spec says `tasks.max` is "set to the
user's value when present", but a connector config def named
`tasks.max` with a boolean `value` makes step 2 overwrite the user's
`7` with `false` (source line 2042 lower-cases the stringified bool):
the returned value differs from the user's. -/
theorem claim_C10_tasks_max_counterexample :
    cmGet c10User "tasks.max" = some "7" ∧
    cmGet (transformSMToFm (fun _ _ => 0) [] none (some tmplC10) "conn"
      c10User).fm_configs "tasks.max" = some "false" ∧
    ("false" : String) ≠ "7" :=
  ⟨rfl, rfl, by simp⟩

/-- C10 amended: whenever `transformSMToFm` reaches config processing
(non-empty user config with `connector.class`, an FM template found,
and a non-empty `template_config_defs` list — otherwise the line-1697
early return yields an empty dict), the returned `fm_configs` contains
the key `tasks.max`: step 1 seeds it (user value if present, else
`"1"`, lines 1676-1679) and no later step ever removes a key. The
seeded value itself is not final — see the counterexample. -/
theorem claim_C10_tasks_max (score : SmProp → TemplateConfigDef → ℚ)
    (allowed : List String) (smT : Option SmTemplate) (fmT : FmTemplate)
    (cname : String) (ucfg : ConfigMap) (hne : ucfg ≠ [])
    (hcc : cmContains ucfg "connector.class" = true)
    (hdefs : extract_template_config_defs fmT ≠ []) :
    cmContains (transformSMToFm score allowed smT (some fmT) cname ucfg).fm_configs
      "tasks.max" = true := by
  unfold transformSMToFm
  rw [if_neg hne]
  dsimp only
  rw [if_neg (by simp [hcc])]
  unfold transformWithTemplate
  dsimp only
  rw [if_neg hdefs]
  dsimp only
  apply cmContains_cmUpdate_of_contains
  apply check_required_configs_contains
  apply doSemanticMatching_contains
  refine foldl_preserve
    (P := fun st : MapState => cmContains st.fm_configs "tasks.max" = true)
    (fun st kv hst => step4Item_contains _ st kv _ hst) ucfg _ ?_
  dsimp only
  apply templateDefsPassGo_contains
  refine foldl_preserve
    (P := fun st : MapState => cmContains st.fm_configs "tasks.max" = true)
    (fun st kv hst => step2Item_contains _ _ _ st kv _ hst) ucfg _ ?_
  dsimp only
  split
  · simp [cmContains, cmGet_cmInsert_self]
  · simp [cmContains, cmGet_cmInsert_self]

theorem claim_C10_tasks_max_witness :
    (c10User ≠ [] ∧ cmContains c10User "connector.class" = true ∧
      extract_template_config_defs tmplC10 ≠ []) ∧
    cmContains (transformSMToFm (fun _ _ => 0) [] none (some tmplC10) "conn"
      c10User).fm_configs "tasks.max" = true :=
  ⟨⟨by simp [c10User], rfl, by simp [tmplC10, extract_template_config_defs]⟩,
    claim_C10_tasks_max (fun _ _ => 0) [] none tmplC10 "conn" c10User
      (by simp [c10User]) rfl (by simp [tmplC10, extract_template_config_defs])⟩

/-! ## Claim about overwriting already-resolved FM keys -/

/-- An FM template whose connector configs set `connection.host`
directly and whose template config defs list it for derivation. -/
def tmplC1 : FmTemplate :=
  { templates := [{ template_id := some "Tid",
                    config_defs := [{ name := "connection.host" }],
                    connector_configs :=
                      [{ name := "connection.host", value := some (.vstr "h1") }] }] }

def c1User : ConfigMap :=
  [("connector.class", "X"), ("connection.host", "h1"),
   ("connection.url", "jdbc:postgresql://h2:5432/db")]

/-- C1 counterexample: the connector-defs pass (step 2) sets
`connection.host` to `h1`, yet the template-defs pass overwrites a key
that is already set — source line 1787 assigns
`fm_configs[template_config_name] = derived_value` with no presence
check — so the full pipeline ends with the derived `h2`, not the
previously resolved `h1`. -/
theorem claim_C1_non_overwrite_counterexample :
    cmGet (process_user_config_in_connector_config_def
      { name := "connection.host", value := some (.vstr "h1") } "h1"
      (extract_template_config_defs tmplC1) {} c1User).fm_configs
      "connection.host" = some "h1" ∧
    cmGet (templateDefsPassGo c1User (extract_template_config_defs tmplC1)
      (extract_template_config_defs tmplC1) [("connection.host", "h1")]).1
      "connection.host" = some "h2" ∧
    cmGet (transformSMToFm (fun _ _ => 0) [] none (some tmplC1) "conn"
      c1User).fm_configs "connection.host" = some "h2" ∧
    ("h2" : String) ≠ "h1" :=
  ⟨rfl, rfl, rfl, by simp⟩

/-- C1 amended: the template-defs pass writes every non-null derived
value UNCONDITIONALLY — whenever the registry holds an ordinary
derivation function for a def name and that function returns a value,
the pass ends with that value under the def name, regardless of any
earlier binding (first conjunct); the non-overwrite discipline the
spec describes is enforced only by the later semantic-matching step,
which never changes an existing binding (second conjunct). -/
theorem claim_C1_non_overwrite
    (u fm : ConfigMap) (defs : List TemplateConfigDef) (td : TemplateConfigDef)
    (f : ConfigMap → ConfigMap → List TemplateConfigDef → String → Option String)
    (v : String) (h₁ : getConfigDerivationMethod td.name = some (.fn f))
    (h₂ : f u fm defs td.name = some v) :
    cmGet (templateDefsPassGo u defs [td] fm).1 td.name = some v ∧
    (∀ (score : SmProp → TemplateConfigDef → ℚ) (sml : List String)
        (uc : ConfigMap) (tds : List TemplateConfigDef) (smT : Option SmTemplate)
        (fm₀ : ConfigMap) (k w : String), cmGet fm₀ k = some w →
      cmGet (doSemanticMatching score fm₀ sml uc tds smT) k = some w) := by
  constructor
  · unfold templateDefsPassGo
    rw [h₁]
    dsimp only
    rw [h₂]
    unfold templateDefsPassGo
    exact cmGet_cmInsert_self fm td.name v
  · intro score sml uc tds smT fm₀ k w hw
    exact doSemanticMatching_get_preserve score sml uc tds smT fm₀ k w hw

theorem claim_C1_non_overwrite_witness :
    (getConfigDerivationMethod "connection.host" =
        some (.fn derive_connection_host) ∧
      derive_connection_host c1User [("connection.host", "h1")]
        (extract_template_config_defs tmplC1) "connection.host" = some "h2") ∧
    cmGet (templateDefsPassGo c1User (extract_template_config_defs tmplC1)
      [{ name := "connection.host" }] [("connection.host", "h1")]).1
      "connection.host" = some "h2" :=
  ⟨⟨rfl, rfl⟩,
    (claim_C1_non_overwrite c1User [("connection.host", "h1")]
      (extract_template_config_defs tmplC1) { name := "connection.host" }
      derive_connection_host "h2" rfl rfl).1⟩

end ConnectMigration
